import Mathlib

set_option maxRecDepth 8000

/-!
Verification of the dungeon-floor generation algorithm of the repository.

The repository's source file is a binding surface: it declares the generation
routines (with detailed documentation of their behaviour) while their bodies
live in an external binary.  The definitions below are therefore a shallow
embedding of those routines, modelled from the specification and from the
per-routine documentation that accompanies the declarations in the source.
-/

namespace DungeonGen

/-- Positions on the dungeon floor, as (x, y) coordinates. -/
abbrev Pos : Type := Nat × Nat

/-- Logical terrain classification of a tile.  `normal` is open, walkable
floor; `secondary` is water/lava; `wall` and `chasm` are not walkable. -/
inductive Terrain
  | wall
  | normal
  | secondary
  | chasm
  deriving DecidableEq, Repr

/-- Modelled from the spec: the per-tile state of the mutable tile grid
(terrain kind, room index, and the flag bitset described in the data model,
including spawn flags and the unreachable diagnostic bit). -/
structure Tile where
  terrain : Terrain := .wall
  roomIndex : Nat := 0
  impassable : Bool := false
  junction : Bool := false
  inMonsterHouse : Bool := false
  inKecleonShop : Bool := false
  keyDoor : Bool := false
  stairsSpawn : Bool := false
  hiddenStairsSpawn : Bool := false
  itemSpawn : Bool := false
  trapSpawn : Bool := false
  enemySpawn : Bool := false
  playerSpawn : Bool := false
  unreachableFlag : Bool := false
  deriving DecidableEq, Repr

/-- Room index sentinel meaning "hallway". -/
def HALLWAY_SENTINEL : Nat := 255

/-- Room index sentinel meaning "hallway anchor, not yet finalized". -/
def ANCHOR_SENTINEL : Nat := 254

/-- Modelled from the spec: the mutable 2-D tile grid, as dimensions plus a
total tile-lookup function (out-of-bounds lookups return whatever default the
function yields, mirroring the game's safe tile getter). -/
structure Grid where
  width : Nat
  height : Nat
  tile : Pos → Tile

/-- Bounds check for a position on a grid. -/
def inBoundsB (g : Grid) (p : Pos) : Bool :=
  decide (p.1 < g.width) && decide (p.2 < g.height)

/-- Write one tile of the grid (unconditionally, at the given position). -/
def setTile (g : Grid) (p : Pos) (t : Tile) : Grid :=
  { g with tile := fun q => if q = p then t else g.tile q }

/-- Write one tile of the grid, guarded by the bounds check. -/
def putTile (g : Grid) (p : Pos) (t : Tile) : Grid :=
  if inBoundsB g p then setTile g p t else g

/-- Apply a tile transformation to every in-bounds tile of the grid. -/
def mapTilesIn (g : Grid) (f : Pos → Tile → Tile) : Grid :=
  { g with tile := fun p => if inBoundsB g p then f p (g.tile p) else g.tile p }

/-- The scan ordinal of a position: row-major, left-to-right, top-to-bottom. -/
def scanIdx (g : Grid) (p : Pos) : Nat := p.2 * g.width + p.1

/-- The position with a given row-major scan ordinal. -/
def posAt (g : Grid) (i : Nat) : Pos := (i % g.width, i / g.width)

/-- All in-bounds positions of a grid, in row-major scan order. -/
def rowMajor (g : Grid) : List Pos :=
  (List.range (g.width * g.height)).map (posAt g)

/-- The four cardinal neighbor positions of a position that exist over the
natural-number coordinate space. -/
def neighbors (p : Pos) : List Pos :=
  [(p.1 + 1, p.2), (p.1, p.2 + 1)]
    ++ (if 0 < p.1 then [(p.1 - 1, p.2)] else [])
    ++ (if 0 < p.2 then [(p.1, p.2 - 1)] else [])

/-- The in-bounds cardinal neighbors of a position. -/
def neighborsIn (g : Grid) (p : Pos) : List Pos :=
  (neighbors p).filter (inBoundsB g)

/-- A tile with open (walkable) terrain. -/
def isOpenTile (t : Tile) : Bool := decide (t.terrain = Terrain.normal)

/-- Modelled from the spec: the injected random source ("next-uniform-integer
in range"), replayed from an explicit stream of numbers. -/
abbrev Rng : Type := List Nat

/-- Draw the next number below `bound` from the random stream (an exhausted
stream keeps yielding 0). -/
def rngNext (rng : Rng) (bound : Nat) : Nat × Rng :=
  match rng with
  | [] => (0, [])
  | x :: rest => (x % bound, rest)

/-- Modelled from the spec: per-tile invalid-spawn resolution, whose body is
external (symbol ResolveInvalidSpawns).  Traps cannot spawn on obstacles, and
a stairs spawn takes precedence over a trap spawn on the same tile. -/
def resolveTileSpawns (t : Tile) : Tile :=
  let t1 := if t.terrain = Terrain.normal then t else { t with trapSpawn := false }
  if t1.stairsSpawn && t1.trapSpawn then { t1 with trapSpawn := false } else t1

/-- Modelled from the spec: resolve invalid spawn flags on all tiles
(symbol ResolveInvalidSpawns, whose body is external to the repository). -/
def ResolveInvalidSpawns (g : Grid) : Grid :=
  mapTilesIn g (fun _ t => resolveTileSpawns t)

/-- Modelled from the spec: spawn stairs at a position (symbol SpawnStairs,
body external).  If the hidden-stairs flag is set, hidden stairs are spawned
instead of normal stairs.  If spawning normal stairs on a rescue floor, the
room containing the stairs is converted into a Monster House. -/
def SpawnStairs (g : Grid) (pos : Pos) (hiddenFlag : Bool) (rescueFloor : Bool) : Grid :=
  if hiddenFlag then
    putTile g pos { g.tile pos with hiddenStairsSpawn := true }
  else
    let g1 := putTile g pos { g.tile pos with stairsSpawn := true }
    if rescueFloor then
      mapTilesIn g1 (fun _ t =>
        if t.roomIndex = (g1.tile pos).roomIndex then { t with inMonsterHouse := true } else t)
    else g1

/-- Modelled from the spec: set a tile to secondary terrain, but only if it is
a passable wall (symbol SetSecondaryTerrainOnWall, body external). -/
def SetSecondaryTerrainOnWall (t : Tile) : Tile :=
  if t.terrain = Terrain.wall ∧ t.impassable = false then
    { t with terrain := Terrain.secondary }
  else t

/-- Modelled from the spec: make every tile flagged impassable a wall
(symbol EnsureImpassableTilesAreWalls, body external). -/
def EnsureImpassableTilesAreWalls (g : Grid) : Grid :=
  mapTilesIn g (fun _ t => if t.impassable then { t with terrain := Terrain.wall } else t)

/-- One step of two-axis movement over natural-number coordinates
(0 right, 1 left, 2 down, 3 up). -/
def stepDir (d : Nat) (p : Pos) : Pos :=
  match d with
  | 0 => (p.1 + 1, p.2)
  | 1 => (p.1 - 1, p.2)
  | 2 => (p.1, p.2 + 1)
  | _ => (p.1, p.2 - 1)

/-- Modelled from the spec: the tile positions visited by one river random
walk, which terminates on reaching existing secondary terrain or going out of
bounds. -/
def riverPositions (g : Grid) : Nat → Pos → Rng → List Pos
  | 0, _, _ => []
  | fuel + 1, p, rng =>
    if inBoundsB g p = false ∨ (g.tile p).terrain = Terrain.secondary then []
    else
      let (d, rng') := rngNext rng 4
      p :: riverPositions g fuel (stepDir d p) rng'

/-- Modelled from the spec: the blob of positions of a lake grown outward
from a center point. -/
def lakePositions (c : Pos) : List Pos :=
  c :: (neighbors c).flatMap (fun q => q :: neighbors q)

/-- Modelled from the spec: lay secondary terrain at one river/lake position,
going through the passable-wall check and skipping the tile otherwise. -/
def applySecondary (g : Grid) (p : Pos) : Grid :=
  if inBoundsB g p then setTile g p (SetSecondaryTerrainOnWall (g.tile p)) else g

/-- Modelled from the spec: generate secondary terrain formations (symbol
GenerateSecondaryTerrainFormations, body external): rivers are random walks
from a floor edge laying secondary terrain, sometimes ending early in a lake
blob; every conversion goes through the passable-wall check. -/
def GenerateSecondaryTerrainFormations (testBit : Bool) (g : Grid) (rng : Rng) : Grid :=
  if testBit = false then g
  else
    let (x0, rng1) := rngNext rng g.width
    let (lakeRoll, rng2) := rngNext rng1 4
    let ps := riverPositions g (g.width * g.height) (x0, 0) rng2
    let lake :=
      if lakeRoll = 0 then
        match ps.getLast? with
        | some c => lakePositions c
        | none => []
      else []
    (ps ++ lake).foldl applySecondary g

/-- The inclusive list of integers from a to b, walking in the direction of b. -/
def natRange (a b : Nat) : List Nat :=
  if a ≤ b then (List.range (b - a + 1)).map (fun i => a + i)
  else (List.range (a - b + 1)).map (fun i => a - i)

/-- Modelled from the spec: the straight or single-kink (L/Z) tile path of a
hallway between two endpoints, with the kink on the given middle coordinate. -/
def kinkedPath (sx sy ex ey : Nat) (isVertical : Bool) (mx my : Nat) : List Pos :=
  if isVertical then
    ((natRange sy my).map (fun y => (sx, y)))
      ++ ((natRange sx ex).drop 1).map (fun x => (x, my))
      ++ ((natRange my ey).drop 1).map (fun y => (ex, y))
  else
    ((natRange sx mx).map (fun x => (x, sy)))
      ++ ((natRange sy ey).drop 1).map (fun y => (mx, y))
      ++ ((natRange mx ex).drop 1).map (fun x => (x, ey))

/-- A tile rewritten as carved, open hallway. -/
def openedTile (t : Tile) : Tile :=
  { t with terrain := Terrain.normal, roomIndex := HALLWAY_SENTINEL }

/-- Open one tile as carved hallway (guarded by the bounds check). -/
def openHallwayAt (g : Grid) (p : Pos) : Grid :=
  if inBoundsB g p then setTile g p (openedTile (g.tile p)) else g

/-- The predicate under which carving continues at a tile: the tile was not
already open in the snapshot grid. -/
def notOpenInB (g0 : Grid) (p : Pos) : Bool :=
  !(decide ((g0.tile p).terrain = Terrain.normal))

/-- Modelled from the spec: carve along a path tile-by-tile, stopping at the
first tile that was already open in the snapshot grid g0. -/
def carveFrom (g0 : Grid) : Grid → List Pos → Grid
  | g, [] => g
  | g, p :: rest =>
    if (g0.tile p).terrain = Terrain.normal then g
    else carveFrom g0 (openHallwayAt g p) rest

/-- Modelled from the spec: create a hallway between two points (symbol
CreateHallway, body external).  The hallway follows the straight or kinked
path; carving proceeds tile-by-tile from each endpoint and stops as soon as it
reaches a tile that was already open. -/
def create_hallway (g : Grid) (sx sy ex ey : Nat) (isVertical : Bool) (mx my : Nat) : Grid :=
  let path := kinkedPath sx sy ex ey isVertical mx my
  let g1 := carveFrom g g path
  carveFrom g g1 path.reverse

/-- The number of tiles carved from the head of a path before the walk meets a
tile that is already open in g. -/
def carvePrefixLen (g : Grid) (l : List Pos) : Nat :=
  (l.takeWhile (notOpenInB g)).length

/-- A walkable tile position: in bounds, open terrain, not impassable. -/
def walkableB (g : Grid) (p : Pos) : Bool :=
  inBoundsB g p && decide ((g.tile p).terrain = Terrain.normal) && !(g.tile p).impassable

/-- Boolean membership of a position in a list of positions. -/
def memB (p : Pos) (l : List Pos) : Bool :=
  l.any (fun q => decide (q = p))

/-- One expansion round of the graph traversal: adjoin every walkable tile
adjacent to an already-visited tile. -/
def expandOnce (g : Grid) (v : List Pos) : List Pos :=
  v ++ (rowMajor g).filter
    (fun p => walkableB g p && !(memB p v) && (neighbors p).any (fun q => memB q v))

/-- Iterate the expansion until it adds nothing (or the fuel runs out). -/
def saturate (g : Grid) : Nat → List Pos → List Pos
  | 0, v => v
  | fuel + 1, v =>
    if (expandOnce g v).length = v.length then v else saturate g fuel (expandOnce g v)

/-- Modelled from the spec: the set of tiles visited by the graph traversal
from the stairs over the four-connected walkable-tile graph (part of symbol
StairsAlwaysReachable, whose body is external).  The spec allows any
traversal that visits exactly the tiles reachable by a walkable path. -/
def reachSet (g : Grid) (s : Pos) : List Pos :=
  saturate g (g.width * g.height) [s]

/-- Mark the unreachable diagnostic bit on a tile. -/
def markUnreachable (t : Tile) : Tile := { t with unreachableFlag := true }

/-- Modelled from the spec: the reachability check (symbol
StairsAlwaysReachable, body external).  Returns whether every walkable tile
was visited by the traversal from the stairs; when some walkable tile was
missed the check returns the always-return flag and flags every missed
walkable tile as unreachable. -/
def StairsAlwaysReachable (g : Grid) (s : Pos) (alwaysReturnTrue : Bool) : Bool × Grid :=
  if ((rowMajor g).filter (fun p => walkableB g p && !(memB p (reachSet g s)))).isEmpty then
    (true, g)
  else
    (alwaysReturnTrue,
      ((rowMajor g).filter (fun p => walkableB g p && !(memB p (reachSet g s)))).foldl
        (fun g2 p => putTile g2 p (markUnreachable (g2.tile p))) g)

/-- Modelled from the spec: the one-room Monster House fallback layout
(symbol GenerateOneRoomMonsterHouseFloor, body external): a single large open
room filling the floor inside an impassable wall border, tagged as a Monster
House. -/
def GenerateOneRoomMonsterHouseFloor (w h : Nat) : Grid :=
  ⟨w, h, fun p =>
    if 1 ≤ p.1 ∧ p.1 ≤ w - 2 ∧ 1 ≤ p.2 ∧ p.2 ≤ h - 2 then
      { terrain := Terrain.normal, roomIndex := 0, inMonsterHouse := true }
    else
      { terrain := Terrain.wall,
        impassable := decide (p.1 = 0 ∨ p.1 = w - 1 ∨ p.2 = 0 ∨ p.2 = h - 1) }⟩

/-- Modelled from the spec: the fixed full-floor dimensions (56 x 32). -/
def FLOOR_WIDTH : Nat := 56

/-- Modelled from the spec: the fixed full-floor dimensions (56 x 32). -/
def FLOOR_HEIGHT : Nat := 32

/-- Result of the floor-generation orchestrator: a floor accepted on the
normal path (with its stairs position), or the unconditional fallback. -/
inductive GenResult
  | acceptedFloor (g : Grid) (stairs : Pos)
  | fallbackFloor (g : Grid)

/-- Modelled from the spec: the orchestrator retry/fallback loop.  Each
attempt produces a candidate floor and stairs position (abstracting the reset
and layout phases); a floor is accepted only when the reachability check
passes; exhausting the attempt budget falls back to the one-room Monster
House layout, generated without any further check. -/
def orchestrate (attempt : Nat → Grid × Pos) : Nat → GenResult
  | 0 => GenResult.fallbackFloor (GenerateOneRoomMonsterHouseFloor FLOOR_WIDTH FLOOR_HEIGHT)
  | n + 1 =>
    if (StairsAlwaysReachable (attempt n).1 (attempt n).2 false).1 = true then
      GenResult.acceptedFloor
        (StairsAlwaysReachable (attempt n).1 (attempt n).2 false).2 (attempt n).2
    else orchestrate attempt n

/-- One traversal step of the walkable-tile graph: move to an adjacent
walkable tile. -/
def stepRel (g : Grid) (a b : Pos) : Prop :=
  walkableB g b = true ∧ b ∈ neighbors a

/-- Graph reachability over the four-connected walkable-tile graph. -/
def Reaches (g : Grid) (p q : Pos) : Prop :=
  Relation.ReflTransGen (stepRel g) p q

/-- The rectangle of coordinates a maze line must stay within. -/
structure MazeBounds where
  xmin : Nat
  ymin : Nat
  xmax : Nat
  ymax : Nat

/-- The stride-two step destination of a maze-line step in direction d. -/
def mazeStepTarget (d : Nat) (p : Pos) : Pos :=
  match d with
  | 0 => (p.1 + 2, p.2)
  | 1 => (p.1 - 2, p.2)
  | 2 => (p.1, p.2 + 2)
  | _ => (p.1, p.2 - 2)

/-- Whether a stride-two step in direction d keeps the walk inside the maze
bounds. -/
def dirOkB (bd : MazeBounds) (p : Pos) (d : Nat) : Bool :=
  match d with
  | 0 => decide (p.1 + 2 ≤ bd.xmax)
  | 1 => decide (bd.xmin + 2 ≤ p.1)
  | 2 => decide (p.2 + 2 ≤ bd.ymax)
  | _ => decide (bd.ymin + 2 ≤ p.2)

/-- A tile that is open and within the grid. -/
def openInB (g : Grid) (p : Pos) : Bool :=
  inBoundsB g p && decide ((g.tile p).terrain = Terrain.normal)

/-- Modelled from the spec: the step directions available to the maze-line
walk at a position: stride two in a cardinal direction, staying in bounds and
landing on an open tile. -/
def validDirs (g : Grid) (bd : MazeBounds) (p : Pos) : List Nat :=
  [0, 1, 2, 3].filter (fun d => dirOkB bd p d && openInB g (mazeStepTarget d p))

/-- Modelled from the spec: set a tile to an obstacle (symbol
SetTerrainObstacleChecked, body external); secondary terrain may only be
placed in the given room, a wall is placed otherwise. -/
def SetTerrainObstacleChecked (t : Tile) (useSecondary : Bool) (roomIdx : Nat) : Tile :=
  if useSecondary && decide (t.roomIndex = roomIdx) then { t with terrain := Terrain.secondary }
  else { t with terrain := Terrain.wall }

/-- Deposit an obstacle tile (guarded by the grid bounds). -/
def setObstacleAt (g : Grid) (p : Pos) (useSecondary : Bool) (roomIdx : Nat) : Grid :=
  if inBoundsB g p then
    setTile g p (SetTerrainObstacleChecked (g.tile p) useSecondary roomIdx)
  else g

/-- The number of open tiles on the grid. -/
def openCount (g : Grid) : Nat :=
  ((rowMajor g).filter (fun p => decide ((g.tile p).terrain = Terrain.normal))).length

/-- Modelled from the spec: the maze-line random walk (symbol
GenerateMazeLine, body external): repeatedly pick a random direction whose
stride-two destination is in bounds and open, deposit obstacle tiles on the
intermediate tile and the destination, and continue from the destination;
the walk stops when no direction is available. -/
def mazeLineGo (bd : MazeBounds) (useSecondary : Bool) (roomIdx : Nat) :
    Nat → Grid → Pos → Rng → Grid × Pos
  | 0, g, p, _ => (g, p)
  | fuel + 1, g, p, rng =>
    if (validDirs g bd p).isEmpty then (g, p)
    else
      mazeLineGo bd useSecondary roomIdx fuel
        (setObstacleAt
          (setObstacleAt g
            (stepDir ((validDirs g bd p).getD ((rngNext rng (validDirs g bd p).length).1) 0) p)
            useSecondary roomIdx)
          (mazeStepTarget ((validDirs g bd p).getD ((rngNext rng (validDirs g bd p).length).1) 0) p)
          useSecondary roomIdx)
        (mazeStepTarget ((validDirs g bd p).getD ((rngNext rng (validDirs g bd p).length).1) 0) p)
        ((rngNext rng (validDirs g bd p).length).2)

/-- Modelled from the spec: generate one maze line from a seed point within
the given bounds (symbol GenerateMazeLine, body external). -/
def GenerateMazeLine (x0 y0 : Nat) (bd : MazeBounds) (useSecondary : Bool) (roomIdx : Nat)
    (g : Grid) (rng : Rng) : Grid × Pos :=
  mazeLineGo bd useSecondary roomIdx (openCount g + 1)
    (setObstacleAt g (x0, y0) useSecondary roomIdx) (x0, y0) rng

/-- Kinds of spawn records produced by the entity placer. -/
inductive SpawnKind
  | stairsSp
  | hiddenStairsSp
  | normalItem
  | buriedItem
  | monsterHouseItem
  | normalTrap
  | monsterHouseTrap
  | playerSp
  | normalEnemy
  | monsterHouseEnemy
  deriving DecidableEq, Repr

/-- A spawn record: entity kind and tile position. -/
structure SpawnRecord where
  kind : SpawnKind
  pos : Pos
  deriving DecidableEq, Repr

/-- Modelled from the spec: the caller-supplied floor properties (the ffi
floor_properties value object), reduced to the fields the modelled phases
read. -/
structure floor_properties where
  itemCount : Nat := 0
  trapCount : Nat := 0
  enemyCount : Nat := 0
  buriedItemCount : Nat := 0
  mhItemCount : Nat := 0
  mhTrapCount : Nat := 0
  mhEnemyCount : Nat := 0
  floorsLeft : Nat := 0
  hiddenStairsFlag : Bool := false
  rescueFloor : Bool := false
  attemptBudget : Nat := 0
  deriving DecidableEq, Repr

/-- Modelled from the spec: the recursion of the spawn-position shuffle,
extracting a randomly chosen element at a time (symbol
ShuffleSpawnPositions, body external). -/
def shuffleGo : Nat → List Pos → Rng → List Pos × Rng
  | 0, l, rng => (l, rng)
  | n + 1, l, rng =>
    if l.isEmpty then (l, rng)
    else
      (l.getD ((rngNext rng l.length).1) (0, 0)
          :: (shuffleGo n (l.eraseIdx ((rngNext rng l.length).1)) ((rngNext rng l.length).2)).1,
        (shuffleGo n (l.eraseIdx ((rngNext rng l.length).1)) ((rngNext rng l.length).2)).2)

/-- Modelled from the spec: randomly shuffle an array of spawn positions
(symbol ShuffleSpawnPositions, body external). -/
def ShuffleSpawnPositions (l : List Pos) (rng : Rng) : List Pos × Rng :=
  shuffleGo l.length l rng

/-- A tile inside a room: its room index is a concrete room, not one of the
hallway sentinels. -/
def inRoomB (g : Grid) (p : Pos) : Bool :=
  !(decide ((g.tile p).roomIndex = HALLWAY_SENTINEL))
    && !(decide ((g.tile p).roomIndex = ANCHOR_SENTINEL))

/-- Modelled from the spec: eligibility of a tile for a stairs spawn (symbol
SpawnNonEnemies, body external): open terrain, in a room, not in a Kecleon
shop, no enemy spawn, not a junction, not a special tile. -/
def stairsEligB (g : Grid) (p : Pos) : Bool :=
  isOpenTile (g.tile p) && inRoomB g p && !(g.tile p).inKecleonShop
    && !(g.tile p).enemySpawn && !(g.tile p).junction && !(g.tile p).keyDoor

/-- Modelled from the spec: eligibility for a normal item spawn: open, in a
room, not in a Kecleon shop or Monster House, not a junction, not special. -/
def normalItemEligB (g : Grid) (p : Pos) : Bool :=
  isOpenTile (g.tile p) && inRoomB g p && !(g.tile p).inKecleonShop
    && !(g.tile p).inMonsterHouse && !(g.tile p).junction && !(g.tile p).keyDoor

/-- Modelled from the spec: eligibility for a buried item spawn: any wall
tile. -/
def buriedItemEligB (g : Grid) (p : Pos) : Bool :=
  decide ((g.tile p).terrain = Terrain.wall)

/-- Modelled from the spec: eligibility for a Monster House item or trap
spawn: any Monster House tile not in a Kecleon shop and not a junction. -/
def mhItemEligB (g : Grid) (p : Pos) : Bool :=
  (g.tile p).inMonsterHouse && !(g.tile p).inKecleonShop && !(g.tile p).junction

/-- Modelled from the spec: eligibility for a normal trap spawn: open, in a
room, not in a Kecleon shop, no item or enemy spawn, not special. -/
def normalTrapEligB (g : Grid) (p : Pos) : Bool :=
  isOpenTile (g.tile p) && inRoomB g p && !(g.tile p).inKecleonShop
    && !(g.tile p).itemSpawn && !(g.tile p).enemySpawn && !(g.tile p).keyDoor

/-- Modelled from the spec: eligibility for the player spawn: open, in a
room, not in a Kecleon shop, not a junction, no item, enemy or trap spawn,
not special. -/
def playerEligB (g : Grid) (p : Pos) : Bool :=
  isOpenTile (g.tile p) && inRoomB g p && !(g.tile p).inKecleonShop && !(g.tile p).junction
    && !(g.tile p).itemSpawn && !(g.tile p).enemySpawn && !(g.tile p).trapSpawn
    && !(g.tile p).keyDoor

/-- Modelled from the spec: eligibility for a normal enemy spawn: open
terrain, not in a Kecleon shop, no other entity spawn, not special. -/
def normalEnemyEligB (g : Grid) (p : Pos) : Bool :=
  isOpenTile (g.tile p) && !(g.tile p).inKecleonShop
    && !(g.tile p).stairsSpawn && !(g.tile p).itemSpawn && !(g.tile p).trapSpawn
    && !(g.tile p).playerSpawn && !(g.tile p).enemySpawn && !(g.tile p).keyDoor

/-- Modelled from the spec: eligibility for a Monster House enemy spawn:
Monster House tile, not in a Kecleon shop, not where the player spawns, not
special. -/
def mhEnemyEligB (g : Grid) (p : Pos) : Bool :=
  (g.tile p).inMonsterHouse && !(g.tile p).inKecleonShop && !(g.tile p).playerSpawn
    && !(g.tile p).keyDoor

/-- The spawn flag a placed entity of the given kind sets on its tile. -/
def setSpawnFlagFor (k : SpawnKind) (t : Tile) : Tile :=
  match k with
  | .stairsSp => { t with stairsSpawn := true }
  | .hiddenStairsSp => { t with hiddenStairsSpawn := true }
  | .normalItem => { t with itemSpawn := true }
  | .buriedItem => { t with itemSpawn := true }
  | .monsterHouseItem => { t with itemSpawn := true }
  | .normalTrap => { t with trapSpawn := true }
  | .monsterHouseTrap => { t with trapSpawn := true }
  | .playerSp => { t with playerSpawn := true }
  | .normalEnemy => { t with enemySpawn := true }
  | .monsterHouseEnemy => { t with enemySpawn := true }

/-- Modelled from the spec: place up to count entities of one kind on a
shuffled list of eligible tiles, setting the spawn flag and emitting spawn
records. -/
def placeKind (g : Grid) (eligB : Grid → Pos → Bool) (count : Nat) (k : SpawnKind)
    (rng : Rng) : Grid × List SpawnRecord × Rng :=
  (((ShuffleSpawnPositions ((rowMajor g).filter (eligB g)) rng).1.take count).foldl
      (fun g2 p => putTile g2 p (setSpawnFlagFor k (g2.tile p))) g,
    ((ShuffleSpawnPositions ((rowMajor g).filter (eligB g)) rng).1.take count).map
      (fun p => ⟨k, p⟩),
    (ShuffleSpawnPositions ((rowMajor g).filter (eligB g)) rng).2)

/-- One entity category of a placement pass. -/
structure SpawnCategory where
  kind : SpawnKind
  eligB : Grid → Pos → Bool
  count : Nat

/-- Run one spawn category on the running (grid, records, rng) state. -/
def runCategory (st : Grid × List SpawnRecord × Rng) (c : SpawnCategory) :
    Grid × List SpawnRecord × Rng :=
  ((placeKind st.1 c.eligB c.count c.kind st.2.2).1,
    st.2.1 ++ (placeKind st.1 c.eligB c.count c.kind st.2.2).2.1,
    (placeKind st.1 c.eligB c.count c.kind st.2.2).2.2)

/-- Run a list of spawn categories in order. -/
def runCategories (cats : List SpawnCategory) (g : Grid) (rng : Rng) :
    Grid × List SpawnRecord × Rng :=
  cats.foldl runCategory (g, [], rng)

/-- Modelled from the spec: the categories of the non-enemy placement pass,
in order (symbol SpawnNonEnemies, body external).  An empty Monster House
has no Monster-House items or traps. -/
def nonEnemyCats (props : floor_properties) (emptyMH : Bool) : List SpawnCategory :=
  [⟨.stairsSp, stairsEligB, 1⟩,
    ⟨.hiddenStairsSp, stairsEligB,
      if props.hiddenStairsFlag && decide (2 ≤ props.floorsLeft) then 1 else 0⟩,
    ⟨.normalItem, normalItemEligB, props.itemCount⟩,
    ⟨.buriedItem, buriedItemEligB, props.buriedItemCount⟩,
    ⟨.monsterHouseItem, mhItemEligB, if emptyMH then 0 else props.mhItemCount⟩,
    ⟨.normalTrap, normalTrapEligB, props.trapCount⟩,
    ⟨.monsterHouseTrap, mhItemEligB, if emptyMH then 0 else props.mhTrapCount⟩,
    ⟨.playerSp, playerEligB, 1⟩]

/-- Modelled from the spec: the categories of the enemy placement pass, in
order (symbol SpawnEnemies, body external). -/
def enemyCats (props : floor_properties) (emptyMH : Bool) : List SpawnCategory :=
  [⟨.normalEnemy, normalEnemyEligB, props.enemyCount⟩,
    ⟨.monsterHouseEnemy, mhEnemyEligB, props.mhEnemyCount⟩]

/-- Modelled from the spec: spawn all non-enemy entities (symbol
SpawnNonEnemies, body external). -/
def SpawnNonEnemies (g : Grid) (props : floor_properties) (emptyMH : Bool) (rng : Rng) :
    Grid × List SpawnRecord × Rng :=
  runCategories (nonEnemyCats props emptyMH) g rng

/-- Modelled from the spec: spawn all enemies (symbol SpawnEnemies, body
external). -/
def SpawnEnemies (g : Grid) (props : floor_properties) (emptyMH : Bool) (rng : Rng) :
    Grid × List SpawnRecord × Rng :=
  runCategories (enemyCats props emptyMH) g rng

/-- Both entity-placement passes in sequence, with their combined ordered
spawn-record list. -/
def spawnAll (g : Grid) (props : floor_properties) (emptyMH : Bool) (rng : Rng) :
    Grid × List SpawnRecord × Rng :=
  ((SpawnEnemies (SpawnNonEnemies g props emptyMH rng).1 props emptyMH
      (SpawnNonEnemies g props emptyMH rng).2.2).1,
    (SpawnNonEnemies g props emptyMH rng).2.1
      ++ (SpawnEnemies (SpawnNonEnemies g props emptyMH rng).1 props emptyMH
            (SpawnNonEnemies g props emptyMH rng).2.2).2.1,
    (SpawnEnemies (SpawnNonEnemies g props emptyMH rng).1 props emptyMH
        (SpawnNonEnemies g props emptyMH rng).2.2).2.2)

/-- The row-major serialization of a grid's tiles, for bit-for-bit
comparison of generated floors. -/
def serializeGrid (g : Grid) : List Tile :=
  (rowMajor g).map g.tile

/-- Modelled from the spec: one full generation run (symbol
GenerateStandardFloor and wrapper generate_standard_floor): the orchestrator
retry/fallback loop followed by the two entity-placement passes and the
invalid-spawn resolver, consuming the injected random stream. -/
def generate_standard_floor (attempt : Nat → Grid × Pos) (props : floor_properties)
    (emptyMH : Bool) (rng : Rng) : Grid × List SpawnRecord :=
  match orchestrate attempt props.attemptBudget with
  | GenResult.acceptedFloor g _ =>
    (ResolveInvalidSpawns (spawnAll g props emptyMH rng).1,
      (spawnAll g props emptyMH rng).2.1)
  | GenResult.fallbackFloor g =>
    (ResolveInvalidSpawns (spawnAll g props emptyMH rng).1,
      (spawnAll g props emptyMH rng).2.1)

/-- Mark the junction flag on a tile. -/
def markJunction (t : Tile) : Tile := { t with junction := true }

/-- Reclassify a hallway-anchor tile to the hallway sentinel the instant the
scan visits it. -/
def reclassifyAnchor (g : Grid) (p : Pos) : Grid :=
  if (g.tile p).roomIndex = ANCHOR_SENTINEL then
    setTile g p { g.tile p with roomIndex := HALLWAY_SENTINEL }
  else g

/-- The marking applied when the scan visits an open hallway tile: every
in-bounds cardinal neighbor that is open and not classified hallway receives
the junction flag. -/
def visitNeighbors (g : Grid) (p : Pos) : Grid :=
  (neighborsIn g p).foldl
    (fun g2 a =>
      if (g2.tile a).terrain = Terrain.normal ∧ (g2.tile a).roomIndex ≠ HALLWAY_SENTINEL then
        setTile g2 a (markJunction (g2.tile a))
      else g2) g

/-- Modelled from the spec: one visit of the junction-finalization scan
(symbol FinalizeJunctions, body external): a hallway-anchor tile is
reclassified to the hallway sentinel the instant it is visited, and an open
tile now classified hallway marks its open, non-hallway neighbors as
junctions. -/
def visitTile (g : Grid) (p : Pos) : Grid :=
  if ((reclassifyAnchor g p).tile p).roomIndex = HALLWAY_SENTINEL ∧
      ((reclassifyAnchor g p).tile p).terrain = Terrain.normal then
    visitNeighbors (reclassifyAnchor g p) p
  else reclassifyAnchor g p

/-- Modelled from the spec: junction finalization (symbol FinalizeJunctions,
body external): a single left-to-right, top-to-bottom scan over the grid. -/
def FinalizeJunctions (g : Grid) : Grid :=
  (rowMajor g).foldl visitTile g

/-- The condition, on the original grid, under which the scan's visit of
tile b marks its neighbor p as a junction: b is open and classified hallway
at its visit (a plain hallway tile, or an anchor that just got reclassified),
and p is open and not classified hallway at that moment (so an anchor p
counts only while its own visit, which reclassifies it, has not happened
yet). -/
def marksB (g : Grid) (b p : Pos) : Bool :=
  decide ((g.tile b).terrain = Terrain.normal)
    && (decide ((g.tile b).roomIndex = HALLWAY_SENTINEL)
        || decide ((g.tile b).roomIndex = ANCHOR_SENTINEL))
    && decide ((g.tile p).terrain = Terrain.normal)
    && !(decide ((g.tile p).roomIndex = HALLWAY_SENTINEL))
    && (!(decide ((g.tile p).roomIndex = ANCHOR_SENTINEL))
        || decide (scanIdx g b < scanIdx g p))

/-- The documented example layout A: a hallway approaching a hallway anchor
"o" from the left, with the hallway continuing downward from the anchor. -/
def layoutA : Grid := ⟨5, 4, fun p =>
  if p.2 = 1 ∧ p.1 ≤ 2 then { terrain := .normal, roomIndex := 255 }
  else if p = (3, 1) then { terrain := .normal, roomIndex := 254 }
  else if p.1 = 3 ∧ (p.2 = 2 ∨ p.2 = 3) then { terrain := .normal, roomIndex := 255 }
  else { terrain := .wall }⟩

/-- The documented example layout B: a hallway anchor "o" visited before any
of its hallway neighbors (hallway to its right and below). -/
def layoutB : Grid := ⟨5, 4, fun p =>
  if p = (1, 1) then { terrain := .normal, roomIndex := 254 }
  else if p.2 = 1 ∧ 2 ≤ p.1 then { terrain := .normal, roomIndex := 255 }
  else if p.1 = 1 ∧ (p.2 = 2 ∨ p.2 = 3) then { terrain := .normal, roomIndex := 255 }
  else { terrain := .wall }⟩

/-- The invariant of the junction-finalization scan after the first k visits
of the row-major order: room indices of already-visited anchors are the
hallway sentinel, terrain is untouched, out-of-bounds tiles are untouched,
and a tile carries the junction flag exactly when some already-visited
neighbor marked it. -/
def junctionInv (g0 g : Grid) (k : Nat) : Prop :=
  g.width = g0.width ∧ g.height = g0.height ∧
  (∀ p : Pos, inBoundsB g0 p = false → g.tile p = g0.tile p) ∧
  (∀ p : Pos, (g.tile p).terrain = (g0.tile p).terrain) ∧
  (∀ p : Pos, inBoundsB g0 p = true →
    (g.tile p).roomIndex =
      (if (g0.tile p).roomIndex = ANCHOR_SENTINEL ∧ scanIdx g0 p < k then HALLWAY_SENTINEL
        else (g0.tile p).roomIndex)) ∧
  (∀ p : Pos, inBoundsB g0 p = true →
    ((g.tile p).junction = true ↔
      ∃ b ∈ neighborsIn g0 p, scanIdx g0 b < k ∧ marksB g0 b p = true))

/-- A concrete 4-by-4 grid with a 2-by-2 room of which one tile is tagged as
a Kecleon shop. -/
def shopDemoGrid : Grid := ⟨4, 4, fun p =>
  if p = (1, 1) then { terrain := .normal, roomIndex := 1, inKecleonShop := true }
  else if 1 ≤ p.1 ∧ p.1 ≤ 2 ∧ 1 ≤ p.2 ∧ p.2 ≤ 2 then { terrain := .normal, roomIndex := 1 }
  else { terrain := .wall }⟩

/-- A concrete 5-by-5 fully open grid, used to exercise the maze-line walk. -/
def mazeDemoGrid : Grid := ⟨5, 5, fun _ => { terrain := Terrain.normal }⟩

/-- A concrete 3-by-3 fully open grid, used as a generation attempt. -/
def gridOpen3 : Grid := ⟨3, 3, fun _ => { terrain := Terrain.normal }⟩

/-- A concrete attempt function that always proposes the open 3-by-3 grid
with stairs at its center. -/
def attemptOpen3 : Nat → Grid × Pos := fun _ => (gridOpen3, (1, 1))

end DungeonGen

namespace DungeonGen

theorem resolveTileSpawns_stairs_trap (t : Tile) (hs : t.stairsSpawn = true)
    (ht : t.trapSpawn = true) :
    (resolveTileSpawns t).stairsSpawn = true ∧ (resolveTileSpawns t).trapSpawn = false := by
  unfold resolveTileSpawns
  by_cases hterr : t.terrain = Terrain.normal
  · simp [hterr, hs, ht]
  · simp [hterr, hs]

theorem mapTilesIn_tile (g : Grid) (f : Pos → Tile → Tile) (p : Pos)
    (hp : inBoundsB g p = true) :
    (mapTilesIn g f).tile p = f p (g.tile p) := by
  simp [mapTilesIn, hp]

/-- Claim C7: if, after the entity-placement passes, a single tile carries both
the stairs-spawn flag and the trap-spawn flag, the invalid-spawn resolver
clears the trap-spawn flag and leaves only the stairs-spawn flag set on that
tile. -/
theorem claim_C7 (g : Grid) (p : Pos) (hp : inBoundsB g p = true)
    (hs : (g.tile p).stairsSpawn = true) (ht : (g.tile p).trapSpawn = true) :
    ((ResolveInvalidSpawns g).tile p).stairsSpawn = true ∧
      ((ResolveInvalidSpawns g).tile p).trapSpawn = false := by
  unfold ResolveInvalidSpawns
  rw [mapTilesIn_tile g _ p hp]
  exact resolveTileSpawns_stairs_trap _ hs ht

/-- Witness for claim C7 on a concrete one-tile grid carrying both flags. -/
theorem claim_C7_witness :
    (inBoundsB ⟨1, 1, fun _ => { terrain := .normal, stairsSpawn := true, trapSpawn := true }⟩ (0, 0) = true) ∧
    ((ResolveInvalidSpawns ⟨1, 1, fun _ => { terrain := .normal, stairsSpawn := true, trapSpawn := true }⟩).tile (0, 0)).stairsSpawn = true ∧
    ((ResolveInvalidSpawns ⟨1, 1, fun _ => { terrain := .normal, stairsSpawn := true, trapSpawn := true }⟩).tile (0, 0)).trapSpawn = false :=
  ⟨by decide, claim_C7 _ (0, 0) (by decide) (by decide) (by decide)⟩

theorem putTile_tile (g : Grid) (p : Pos) (t : Tile) (q : Pos) :
    (putTile g p t).tile q =
      if inBoundsB g p = true ∧ q = p then t else g.tile q := by
  unfold putTile setTile
  by_cases hb : inBoundsB g p = true
  · by_cases hq : q = p <;> simp [hb, hq]
  · simp [hb]

theorem putTile_dims (g : Grid) (p : Pos) (t : Tile) :
    (putTile g p t).width = g.width ∧ (putTile g p t).height = g.height := by
  unfold putTile setTile
  by_cases hb : inBoundsB g p = true <;> simp [hb]

theorem putTile_inBoundsB (g : Grid) (p : Pos) (t : Tile) (q : Pos) :
    inBoundsB (putTile g p t) q = inBoundsB g q := by
  unfold inBoundsB
  rw [(putTile_dims g p t).1, (putTile_dims g p t).2]

/-- Claim C10: spawning normal (non-hidden) stairs on a rescue floor converts
the room containing the stairs into a Monster House, while spawning hidden
stairs never changes any Monster-House flag. -/
theorem claim_C10 (g : Grid) (pos : Pos) (rescueFloor : Bool) :
    (∀ p : Pos, inBoundsB g p = true →
        (g.tile p).roomIndex = (g.tile pos).roomIndex →
        ((SpawnStairs g pos false true).tile p).inMonsterHouse = true) ∧
    (∀ p : Pos,
        ((SpawnStairs g pos true rescueFloor).tile p).inMonsterHouse
          = (g.tile p).inMonsterHouse) := by
  constructor
  · intro p hp hroom
    unfold SpawnStairs
    simp only [Bool.false_eq_true, if_false, if_true]
    have hb' : inBoundsB (putTile g pos { g.tile pos with stairsSpawn := true }) p = true := by
      rw [putTile_inBoundsB]; exact hp
    rw [mapTilesIn_tile _ _ p hb']
    have hpt : ∀ q : Pos,
        ((putTile g pos { g.tile pos with stairsSpawn := true }).tile q).roomIndex
          = (g.tile q).roomIndex := by
      intro q
      rw [putTile_tile]
      by_cases hq : inBoundsB g pos = true ∧ q = pos
      · simp [hq, hq.2]
      · simp [hq]
    simp [hpt p, hpt pos, hroom]
  · intro p
    unfold SpawnStairs
    simp only [if_true]
    rw [putTile_tile]
    by_cases hq : inBoundsB g pos = true ∧ p = pos
    · simp [hq, hq.2]
    · simp [hq]

/-- Witness for claim C10 on a concrete grid: a 2-by-1 floor whose two tiles
form room 5, with stairs spawned at (0,0). -/
theorem claim_C10_witness :
    (inBoundsB ⟨2, 1, fun _ => { terrain := .normal, roomIndex := 5 }⟩ (1, 0) = true) ∧
    ((⟨2, 1, fun _ => { terrain := .normal, roomIndex := 5 }⟩ : Grid).tile (1, 0)).roomIndex
      = ((⟨2, 1, fun _ => { terrain := .normal, roomIndex := 5 }⟩ : Grid).tile (0, 0)).roomIndex ∧
    ((SpawnStairs ⟨2, 1, fun _ => { terrain := .normal, roomIndex := 5 }⟩ (0, 0) false true).tile (1, 0)).inMonsterHouse = true :=
  ⟨by decide, by decide,
    (claim_C10 ⟨2, 1, fun _ => { terrain := .normal, roomIndex := 5 }⟩ (0, 0) true).1
      (1, 0) (by decide) (by decide)⟩

theorem applySecondary_tile (g : Grid) (a p : Pos) :
    (applySecondary g a).tile p =
      if p = a ∧ inBoundsB g a = true then SetSecondaryTerrainOnWall (g.tile a)
      else g.tile p := by
  unfold applySecondary setTile
  by_cases hb : inBoundsB g a = true
  · by_cases hp : p = a <;> simp [hb, hp]
  · simp [hb]

theorem setSecondary_cases (t : Tile) :
    SetSecondaryTerrainOnWall t = t ∨
      (t.terrain = Terrain.wall ∧ t.impassable = false ∧
        SetSecondaryTerrainOnWall t = { t with terrain := Terrain.secondary }) := by
  unfold SetSecondaryTerrainOnWall
  by_cases h : t.terrain = Terrain.wall ∧ t.impassable = false
  · exact Or.inr ⟨h.1, h.2, by simp [h]⟩
  · exact Or.inl (by simp [h])

theorem applySecondary_fold_invariant (l : List Pos) (g : Grid) (p : Pos) :
    (l.foldl applySecondary g).tile p = g.tile p ∨
      ((g.tile p).terrain = Terrain.wall ∧ (g.tile p).impassable = false ∧
        (l.foldl applySecondary g).tile p = { g.tile p with terrain := Terrain.secondary }) := by
  induction l generalizing g with
  | nil => exact Or.inl rfl
  | cons a rest ih =>
    simp only [List.foldl_cons]
    have hstep : (applySecondary g a).tile p = g.tile p ∨
        ((g.tile p).terrain = Terrain.wall ∧ (g.tile p).impassable = false ∧
          (applySecondary g a).tile p = { g.tile p with terrain := Terrain.secondary }) := by
      rw [applySecondary_tile]
      by_cases hc : p = a ∧ inBoundsB g a = true
      · obtain ⟨hpa, hbnd⟩ := hc
        subst hpa
        rw [if_pos ⟨rfl, hbnd⟩]
        exact setSecondary_cases (g.tile p)
      · simp [hc]
    rcases hstep with h0 | ⟨h1, h2, h3⟩
    · rcases ih (applySecondary g a) with h | ⟨h1, h2, h3⟩
      · rw [h, h0]; exact Or.inl rfl
      · rw [h0] at h1 h2 h3
        exact Or.inr ⟨h1, h2, h3⟩
    · rcases ih (applySecondary g a) with h | ⟨h1', h2', h3'⟩
      · rw [h, h3]; exact Or.inr ⟨h1, h2, rfl⟩
      · rw [h3] at h1'
        simp at h1'

/-- Claim C6: during secondary-terrain (river/lake) generation no impassable
tile is ever converted, a tile is only ever converted when the passable-wall
predicate holds for it (otherwise it is left as is), and the enforcement pass
renders impassable tiles as walls. -/
theorem claim_C6 (testBit : Bool) (g : Grid) (rng : Rng) (p : Pos) :
    ((g.tile p).impassable = true →
      (GenerateSecondaryTerrainFormations testBit g rng).tile p = g.tile p) ∧
    ((GenerateSecondaryTerrainFormations testBit g rng).tile p ≠ g.tile p →
      (g.tile p).terrain = Terrain.wall ∧ (g.tile p).impassable = false ∧
        ((GenerateSecondaryTerrainFormations testBit g rng).tile p).terrain
          = Terrain.secondary) ∧
    (∀ t : Tile, t.impassable = true → SetSecondaryTerrainOnWall t = t) ∧
    ((g.tile p).impassable = true → inBoundsB g p = true →
      ((EnsureImpassableTilesAreWalls g).tile p).terrain = Terrain.wall) := by
  have key : (GenerateSecondaryTerrainFormations testBit g rng).tile p = g.tile p ∨
      ((g.tile p).terrain = Terrain.wall ∧ (g.tile p).impassable = false ∧
        (GenerateSecondaryTerrainFormations testBit g rng).tile p
          = { g.tile p with terrain := Terrain.secondary }) := by
    unfold GenerateSecondaryTerrainFormations
    by_cases hb : testBit = false
    · simp [hb]
    · simp only [hb, if_false]
      exact applySecondary_fold_invariant _ g p
  refine ⟨?_, ?_, ?_, ?_⟩
  · intro himp
    rcases key with h | ⟨_, h2, _⟩
    · exact h
    · rw [himp] at h2; cases h2
  · intro hne
    rcases key with h | ⟨h1, h2, h3⟩
    · exact absurd h hne
    · exact ⟨h1, h2, by rw [h3]⟩
  · intro t himp
    unfold SetSecondaryTerrainOnWall
    simp [himp]
  · intro himp hb
    unfold EnsureImpassableTilesAreWalls
    rw [mapTilesIn_tile _ _ p hb]
    simp [himp]

theorem takeWhile_stop_at {α : Type} (q : α → Bool) (l : List α) (k : Nat)
    (hk : k < l.length) (hkeq : (l.takeWhile q).length = k) :
    q (l.get ⟨k, hk⟩) = false := by
  induction l generalizing k with
  | nil => simp at hk
  | cons a t ih =>
    rw [List.takeWhile_cons] at hkeq
    by_cases hq : q a = true
    · rw [if_pos hq] at hkeq
      simp only [List.length_cons] at hkeq
      obtain ⟨m, rfl⟩ : ∃ m, k = m + 1 := ⟨(t.takeWhile q).length, by omega⟩
      have hm : m < t.length := by simpa using hk
      have := ih m hm (by omega)
      simp only [List.get_eq_getElem] at this ⊢
      rw [List.getElem_cons_succ]
      exact this
    · rw [if_neg hq] at hkeq
      simp only [List.length_nil] at hkeq
      subst hkeq
      simp only [List.get_eq_getElem, List.getElem_cons_zero]
      exact eq_false_of_ne_true hq

theorem takeWhile_stop {α : Type} (q : α → Bool) (l : List α)
    (h : (l.takeWhile q).length < l.length) :
    q (l.get ⟨(l.takeWhile q).length, h⟩) = false :=
  takeWhile_stop_at q l _ h rfl

theorem takeWhile_length_le_of_false {α : Type} (q : α → Bool) (l : List α) (k : Nat)
    (hk : k < l.length) (h : q (l.get ⟨k, hk⟩) = false) :
    (l.takeWhile q).length ≤ k := by
  by_contra hcon
  push_neg at hcon
  have hget : (l.takeWhile q).get ⟨k, hcon⟩ = l.get ⟨k, hk⟩ := by
    simp only [List.get_eq_getElem]
    exact (List.takeWhile_prefix q).getElem hcon
  have hmem : l.get ⟨k, hk⟩ ∈ l.takeWhile q := by
    rw [← hget]
    simp only [List.get_eq_getElem]
    exact List.getElem_mem _
  have := List.mem_takeWhile_imp hmem
  rw [h] at this
  cases this

theorem openHallwayAt_dims (g : Grid) (p : Pos) :
    (openHallwayAt g p).width = g.width ∧ (openHallwayAt g p).height = g.height := by
  unfold openHallwayAt setTile
  by_cases hb : inBoundsB g p = true <;> simp [hb]

theorem openHallwayAt_inBoundsB (g : Grid) (p q : Pos) :
    inBoundsB (openHallwayAt g p) q = inBoundsB g q := by
  unfold inBoundsB
  rw [(openHallwayAt_dims g p).1, (openHallwayAt_dims g p).2]

theorem openHallwayAt_tile (g : Grid) (a p : Pos) :
    (openHallwayAt g a).tile p =
      if p = a ∧ inBoundsB g a = true then openedTile (g.tile a) else g.tile p := by
  unfold openHallwayAt setTile
  by_cases hb : inBoundsB g a = true
  · by_cases hp : p = a <;> simp [hb, hp]
  · simp [hb]

theorem openedTile_idem (t : Tile) : openedTile (openedTile t) = openedTile t := rfl

theorem foldOpen_dims (L : List Pos) (g : Grid) :
    (L.foldl openHallwayAt g).width = g.width ∧ (L.foldl openHallwayAt g).height = g.height := by
  induction L generalizing g with
  | nil => exact ⟨rfl, rfl⟩
  | cons a rest ih =>
    simp only [List.foldl_cons]
    obtain ⟨h1, h2⟩ := ih (openHallwayAt g a)
    rw [h1, h2]
    exact openHallwayAt_dims g a

theorem foldOpen_inBoundsB (L : List Pos) (g : Grid) (p : Pos) :
    inBoundsB (L.foldl openHallwayAt g) p = inBoundsB g p := by
  unfold inBoundsB
  rw [(foldOpen_dims L g).1, (foldOpen_dims L g).2]

theorem foldOpen_tile (L : List Pos) (g : Grid) (p : Pos) :
    (L.foldl openHallwayAt g).tile p =
      if inBoundsB g p = true ∧ p ∈ L then openedTile (g.tile p) else g.tile p := by
  induction L generalizing g with
  | nil => simp
  | cons a rest ih =>
    simp only [List.foldl_cons]
    rw [ih, openHallwayAt_inBoundsB, openHallwayAt_tile]
    by_cases hpa : p = a
    · subst hpa
      by_cases hpB : inBoundsB g p = true
      · by_cases hmem : p ∈ rest <;> simp [hpB, hmem, openedTile_idem]
      · simp [hpB]
    · by_cases hpB : inBoundsB g p = true
      · by_cases hmem : p ∈ rest <;> simp [hpa, hpB, hmem]
      · simp [hpa, hpB]

theorem carveFrom_eq_fold (g0 g : Grid) (l : List Pos) :
    carveFrom g0 g l = (l.takeWhile (notOpenInB g0)).foldl openHallwayAt g := by
  induction l generalizing g with
  | nil => rfl
  | cons p rest ih =>
    unfold carveFrom
    by_cases hp : (g0.tile p).terrain = Terrain.normal
    · have hno : notOpenInB g0 p = false := by simp [notOpenInB, hp]
      simp [hp, List.takeWhile_cons, hno]
    · have hno : notOpenInB g0 p = true := by simp [notOpenInB, hp]
      simp [hp, List.takeWhile_cons, hno, ih]

theorem create_hallway_tile (g : Grid) (sx sy ex ey : Nat) (v : Bool) (mx my : Nat) (p : Pos) :
    (create_hallway g sx sy ex ey v mx my).tile p =
      if inBoundsB g p = true ∧
          (p ∈ (kinkedPath sx sy ex ey v mx my).takeWhile (notOpenInB g) ∨
            p ∈ (kinkedPath sx sy ex ey v mx my).reverse.takeWhile (notOpenInB g))
        then openedTile (g.tile p) else g.tile p := by
  unfold create_hallway
  rw [carveFrom_eq_fold, carveFrom_eq_fold, foldOpen_tile, foldOpen_inBoundsB, foldOpen_tile]
  by_cases hB : inBoundsB g p = true
  · by_cases h1 : p ∈ (kinkedPath sx sy ex ey v mx my).takeWhile (notOpenInB g) <;>
      by_cases h2 : p ∈ (kinkedPath sx sy ex ey v mx my).reverse.takeWhile (notOpenInB g) <;>
        simp [hB, h1, h2, openedTile_idem]
  · simp [hB]

/-- Claim C5: create_hallway modifies only tiles on the straight or
single-kink path between the endpoints; carving proceeds tile-by-tile from
each endpoint and stops exactly at the first tile that was already open in the
pre-existing grid, leaving that tile and the tiles between the two stopping
points unchanged. -/
theorem claim_C5 (g : Grid) (sx sy ex ey : Nat) (isVertical : Bool) (mx my : Nat)
    (path : List Pos) (hpath : path = kinkedPath sx sy ex ey isVertical mx my)
    (hnd : path.Nodup) :
    (∀ p : Pos, p ∉ path → (create_hallway g sx sy ex ey isVertical mx my).tile p = g.tile p) ∧
    (∀ k, (hk : k < path.length) → k < carvePrefixLen g path →
        inBoundsB g (path.get ⟨k, hk⟩) = true →
        (create_hallway g sx sy ex ey isVertical mx my).tile (path.get ⟨k, hk⟩)
          = openedTile (g.tile (path.get ⟨k, hk⟩))) ∧
    (∀ k, (hk : k < path.length) → path.length - 1 - k < carvePrefixLen g path.reverse →
        inBoundsB g (path.get ⟨k, hk⟩) = true →
        (create_hallway g sx sy ex ey isVertical mx my).tile (path.get ⟨k, hk⟩)
          = openedTile (g.tile (path.get ⟨k, hk⟩))) ∧
    (∀ k, (hk : k < path.length) → carvePrefixLen g path ≤ k →
        carvePrefixLen g path.reverse ≤ path.length - 1 - k →
        (create_hallway g sx sy ex ey isVertical mx my).tile (path.get ⟨k, hk⟩)
          = g.tile (path.get ⟨k, hk⟩)) ∧
    (∀ hi : carvePrefixLen g path < path.length,
        (g.tile (path.get ⟨carvePrefixLen g path, hi⟩)).terrain = Terrain.normal ∧
        (create_hallway g sx sy ex ey isVertical mx my).tile
            (path.get ⟨carvePrefixLen g path, hi⟩)
          = g.tile (path.get ⟨carvePrefixLen g path, hi⟩)) := by
  subst hpath
  have hchar := create_hallway_tile g sx sy ex ey isVertical mx my
  generalize hPdef : kinkedPath sx sy ex ey isVertical mx my = P at hchar hnd ⊢
  have hframe : ∀ p : Pos, p ∉ P →
      (create_hallway g sx sy ex ey isVertical mx my).tile p = g.tile p := by
    intro p hp
    rw [hchar p, if_neg]
    rintro ⟨-, hm | hm⟩
    · exact hp (List.takeWhile_subset _ hm)
    · exact hp (List.mem_reverse.mp (List.takeWhile_subset _ hm))
  have hfwd : ∀ k, (hk : k < P.length) → k < carvePrefixLen g P →
      inBoundsB g (P.get ⟨k, hk⟩) = true →
      (create_hallway g sx sy ex ey isVertical mx my).tile (P.get ⟨k, hk⟩)
        = openedTile (g.tile (P.get ⟨k, hk⟩)) := by
    intro k hk hki hB
    have hki' : k < (P.takeWhile (notOpenInB g)).length := hki
    have hget : (P.takeWhile (notOpenInB g))[k] = P[k] :=
      (List.takeWhile_prefix (notOpenInB g)).getElem hki'
    have hmem : P.get ⟨k, hk⟩ ∈ P.takeWhile (notOpenInB g) := by
      have heq : P.get ⟨k, hk⟩ = (P.takeWhile (notOpenInB g))[k] :=
        (List.get_eq_getElem P ⟨k, hk⟩).trans hget.symm
      rw [heq]
      exact List.getElem_mem hki'
    rw [hchar _, if_pos ⟨hB, Or.inl hmem⟩]
  have hbwd : ∀ k, (hk : k < P.length) → P.length - 1 - k < carvePrefixLen g P.reverse →
      inBoundsB g (P.get ⟨k, hk⟩) = true →
      (create_hallway g sx sy ex ey isVertical mx my).tile (P.get ⟨k, hk⟩)
        = openedTile (g.tile (P.get ⟨k, hk⟩)) := by
    intro k hk hki hB
    have hki' : P.length - 1 - k < (P.reverse.takeWhile (notOpenInB g)).length := hki
    have hrevlen : P.length - 1 - k < P.reverse.length := by
      rw [List.length_reverse]; omega
    have hget : (P.reverse.takeWhile (notOpenInB g))[P.length - 1 - k]
        = P.reverse[P.length - 1 - k] :=
      (List.takeWhile_prefix (notOpenInB g)).getElem hki'
    have hrev : P.reverse[P.length - 1 - k] = P[P.length - 1 - (P.length - 1 - k)] :=
      List.getElem_reverse hrevlen
    have hidx : P.length - 1 - (P.length - 1 - k) = k := by omega
    have hPk : P.reverse[P.length - 1 - k] = P.get ⟨k, hk⟩ := by
      rw [hrev]
      simp only [List.get_eq_getElem, hidx]
    have hmem : P.get ⟨k, hk⟩ ∈ P.reverse.takeWhile (notOpenInB g) := by
      have heq : P.get ⟨k, hk⟩ = (P.reverse.takeWhile (notOpenInB g))[P.length - 1 - k] :=
        (hget.trans hPk).symm
      rw [heq]
      exact List.getElem_mem hki'
    rw [hchar _, if_pos ⟨hB, Or.inr hmem⟩]
  have hmid : ∀ k, (hk : k < P.length) → carvePrefixLen g P ≤ k →
      carvePrefixLen g P.reverse ≤ P.length - 1 - k →
      (create_hallway g sx sy ex ey isVertical mx my).tile (P.get ⟨k, hk⟩)
        = g.tile (P.get ⟨k, hk⟩) := by
    intro k hk h1 h2
    have hn1 : P.get ⟨k, hk⟩ ∉ P.takeWhile (notOpenInB g) := by
      intro hmem
      rw [List.mem_iff_getElem] at hmem
      obtain ⟨j, hj, hjeq⟩ := hmem
      have hjlen : j < P.length :=
        lt_of_lt_of_le hj (List.takeWhile_prefix (notOpenInB g)).length_le
      have hget : (P.takeWhile (notOpenInB g))[j] = P[j] :=
        (List.takeWhile_prefix (notOpenInB g)).getElem hj
      have hjk : P[j] = P[k] := hget.symm.trans (hjeq.trans (List.get_eq_getElem P ⟨k, hk⟩))
      have hje : j = k := (hnd.getElem_inj_iff).mp hjk
      have h1' : k < (P.takeWhile (notOpenInB g)).length := hje ▸ hj
      have h1'' : (P.takeWhile (notOpenInB g)).length ≤ k := h1
      omega
    have hn2 : P.get ⟨k, hk⟩ ∉ P.reverse.takeWhile (notOpenInB g) := by
      intro hmem
      rw [List.mem_iff_getElem] at hmem
      obtain ⟨j, hj, hjeq⟩ := hmem
      have hjrev : j < P.reverse.length :=
        lt_of_lt_of_le hj (List.takeWhile_prefix (notOpenInB g)).length_le
      have hjlen : j < P.length := by rw [List.length_reverse] at hjrev; exact hjrev
      have hget : (P.reverse.takeWhile (notOpenInB g))[j] = P.reverse[j] :=
        (List.takeWhile_prefix (notOpenInB g)).getElem hj
      have hrev : P.reverse[j] = P[P.length - 1 - j] := List.getElem_reverse hjrev
      have hjk : P[P.length - 1 - j] = P[k] :=
        hrev.symm.trans (hget.symm.trans (hjeq.trans (List.get_eq_getElem P ⟨k, hk⟩)))
      have hje : P.length - 1 - j = k := (hnd.getElem_inj_iff).mp hjk
      have hjlt : j < (P.reverse.takeWhile (notOpenInB g)).length := hj
      have h2' : (P.reverse.takeWhile (notOpenInB g)).length ≤ P.length - 1 - k := h2
      omega
    rw [hchar _, if_neg]
    rintro ⟨-, hm | hm⟩
    · exact hn1 hm
    · exact hn2 hm
  refine ⟨hframe, hfwd, hbwd, hmid, ?_⟩
  intro hi
  have hstop : notOpenInB g (P.get ⟨carvePrefixLen g P, hi⟩) = false :=
    takeWhile_stop (notOpenInB g) P hi
  have hopen : (g.tile (P.get ⟨carvePrefixLen g P, hi⟩)).terrain = Terrain.normal := by
    unfold notOpenInB at hstop
    simpa using hstop
  refine ⟨hopen, ?_⟩
  have hrevidx : P.length - 1 - carvePrefixLen g P < P.reverse.length := by
    rw [List.length_reverse]; omega
  have hri : carvePrefixLen g P.reverse ≤ P.length - 1 - carvePrefixLen g P := by
    apply takeWhile_length_le_of_false (notOpenInB g) P.reverse _ hrevidx
    have hrev : P.reverse[P.length - 1 - carvePrefixLen g P]
        = P[P.length - 1 - (P.length - 1 - carvePrefixLen g P)] :=
      List.getElem_reverse hrevidx
    have hidx : P.length - 1 - (P.length - 1 - carvePrefixLen g P) = carvePrefixLen g P := by
      omega
    have hPi : P.reverse.get ⟨P.length - 1 - carvePrefixLen g P, hrevidx⟩
        = P.get ⟨carvePrefixLen g P, hi⟩ := by
      simp only [List.get_eq_getElem]
      rw [hrev]
      simp only [hidx]
    rw [hPi]
    unfold notOpenInB
    simp only [List.get_eq_getElem] at hopen
    simp [hopen]
  exact hmid (carvePrefixLen g P) hi le_rfl hri

/-- Witness for claim C5: a concrete kinked hallway on a 7-by-5 all-wall
grid; tiles off the path are untouched. -/
theorem claim_C5_witness :
    (kinkedPath 1 1 5 3 false 3 0
        = [( (1 : Nat), (1 : Nat) ), (2, 1), (3, 1), (3, 2), (3, 3), (4, 3), (5, 3)]) ∧
    (kinkedPath 1 1 5 3 false 3 0).Nodup ∧
    ((0, 0) ∉ kinkedPath 1 1 5 3 false 3 0) ∧
    (create_hallway ⟨7, 5, fun _ => { terrain := .wall }⟩ 1 1 5 3 false 3 0).tile (0, 0)
      = (⟨7, 5, fun _ => { terrain := .wall }⟩ : Grid).tile (0, 0) :=
  ⟨by decide, by decide, by decide,
    (claim_C5 ⟨7, 5, fun _ => { terrain := .wall }⟩ 1 1 5 3 false 3 0
        (kinkedPath 1 1 5 3 false 3 0) rfl (by decide)).1
      (0, 0) (by decide)⟩

theorem memB_iff (p : Pos) (l : List Pos) : memB p l = true ↔ p ∈ l := by
  unfold memB
  rw [List.any_eq_true]
  constructor
  · rintro ⟨q, hq, hd⟩
    have hqp : q = p := of_decide_eq_true hd
    rwa [hqp] at hq
  · intro hp
    exact ⟨p, hp, by simp⟩

theorem memB_false_iff (p : Pos) (l : List Pos) : memB p l = false ↔ p ∉ l := by
  rw [← Bool.not_eq_true, not_iff_not]
  exact memB_iff p l

theorem mem_rowMajor_iff (g : Grid) (p : Pos) : p ∈ rowMajor g ↔ inBoundsB g p = true := by
  obtain ⟨a, b⟩ := p
  unfold rowMajor posAt inBoundsB
  constructor
  · intro hp
    rw [List.mem_map] at hp
    obtain ⟨i, hi, hie⟩ := hp
    rw [List.mem_range] at hi
    have hw : 0 < g.width := by
      rcases Nat.eq_zero_or_pos g.width with h0 | h
      · rw [h0] at hi; simp at hi
      · exact h
    obtain ⟨ha, hb⟩ : i % g.width = a ∧ i / g.width = b := by
      constructor
      · exact congrArg Prod.fst hie
      · exact congrArg Prod.snd hie
    have h1 : a < g.width := by rw [← ha]; exact Nat.mod_lt _ hw
    have h2 : b < g.height := by
      rw [← hb, Nat.div_lt_iff_lt_mul hw, Nat.mul_comm]
      exact hi
    simp [h1, h2]
  · intro hb
    simp only [Bool.and_eq_true, decide_eq_true_eq] at hb
    obtain ⟨h1, h2⟩ := hb
    rw [List.mem_map]
    refine ⟨b * g.width + a, ?_, ?_⟩
    · rw [List.mem_range]
      calc b * g.width + a < b * g.width + g.width := by omega
        _ = (b + 1) * g.width := by ring
        _ ≤ g.height * g.width := Nat.mul_le_mul_right _ (by omega)
        _ = g.width * g.height := Nat.mul_comm _ _
    · have hmod : (b * g.width + a) % g.width = a := by
        rw [Nat.add_comm, Nat.add_mul_mod_self_right, Nat.mod_eq_of_lt h1]
      have hdiv : (b * g.width + a) / g.width = b := by
        rw [Nat.add_comm, Nat.add_mul_div_right _ _ (by omega : 0 < g.width),
          Nat.div_eq_of_lt h1]
        omega
      rw [hmod, hdiv]

theorem rowMajor_nodup (g : Grid) : (rowMajor g).Nodup := by
  unfold rowMajor
  apply List.Nodup.map_on _ (List.nodup_range _)
  intro x hx y hy hxy
  rw [List.mem_range] at hx hy
  unfold posAt at hxy
  obtain ⟨h1, h2⟩ : x % g.width = y % g.width ∧ x / g.width = y / g.width := by
    constructor
    · exact congrArg Prod.fst hxy
    · exact congrArg Prod.snd hxy
  have ex : g.width * (x / g.width) + x % g.width = x := Nat.div_add_mod x g.width
  have ey : g.width * (y / g.width) + y % g.width = y := Nat.div_add_mod y g.width
  rw [← ex, ← ey, h1, h2]

theorem rowMajor_length (g : Grid) : (rowMajor g).length = g.width * g.height := by
  unfold rowMajor
  rw [List.length_map, List.length_range]

theorem mem_neighbors_iff (p q : Pos) :
    q ∈ neighbors p ↔
      ((q.1 = p.1 + 1 ∧ q.2 = p.2) ∨ (q.1 = p.1 ∧ q.2 = p.2 + 1) ∨
        (0 < p.1 ∧ q.1 = p.1 - 1 ∧ q.2 = p.2) ∨
        (0 < p.2 ∧ q.1 = p.1 ∧ q.2 = p.2 - 1)) := by
  obtain ⟨a, b⟩ := q
  unfold neighbors
  by_cases h1 : 0 < p.1 <;> by_cases h2 : 0 < p.2 <;>
    simp [h1, h2, List.mem_append, Prod.ext_iff, and_comm] <;> tauto

theorem neighbors_symm {p q : Pos} (h : q ∈ neighbors p) : p ∈ neighbors q := by
  rw [mem_neighbors_iff] at h ⊢
  omega

theorem self_not_mem_neighbors (p : Pos) : p ∉ neighbors p := by
  rw [mem_neighbors_iff]
  omega

theorem mem_expandOnce (g : Grid) (v : List Pos) (p : Pos) :
    p ∈ expandOnce g v ↔
      p ∈ v ∨ (p ∈ rowMajor g ∧ walkableB g p = true ∧ p ∉ v ∧
        ∃ q ∈ neighbors p, q ∈ v) := by
  unfold expandOnce
  rw [List.mem_append, List.mem_filter]
  constructor
  · rintro (h | ⟨hrm, hcond⟩)
    · exact Or.inl h
    · right
      simp only [Bool.and_eq_true, Bool.not_eq_true'] at hcond
      obtain ⟨⟨hw, hm⟩, hany⟩ := hcond
      rw [List.any_eq_true] at hany
      obtain ⟨q, hq, hqm⟩ := hany
      exact ⟨hrm, hw, (memB_false_iff p v).mp hm, q, hq, (memB_iff q v).mp hqm⟩
  · rintro (h | ⟨hrm, hw, hnv, q, hq, hqv⟩)
    · exact Or.inl h
    · right
      refine ⟨hrm, ?_⟩
      simp only [Bool.and_eq_true, Bool.not_eq_true']
      refine ⟨⟨hw, (memB_false_iff p v).mpr hnv⟩, ?_⟩
      rw [List.any_eq_true]
      exact ⟨q, hq, (memB_iff q v).mpr hqv⟩

theorem subset_expandOnce (g : Grid) (v : List Pos) : v ⊆ expandOnce g v :=
  fun _ hx => List.mem_append.mpr (Or.inl hx)

theorem expandOnce_nodup (g : Grid) (v : List Pos) (hv : v.Nodup) :
    (expandOnce g v).Nodup := by
  unfold expandOnce
  rw [List.nodup_append]
  refine ⟨hv, List.Nodup.filter _ (rowMajor_nodup g), ?_⟩
  intro x hxv hxf
  rw [List.mem_filter] at hxf
  have hcond := hxf.2
  simp only [Bool.and_eq_true, Bool.not_eq_true'] at hcond
  exact absurd hxv ((memB_false_iff x v).mp hcond.1.2)

theorem expandOnce_length_ge (g : Grid) (v : List Pos) :
    v.length ≤ (expandOnce g v).length := by
  unfold expandOnce
  rw [List.length_append]
  omega

theorem fixpoint_closed (g : Grid) (v : List Pos)
    (hfix : (expandOnce g v).length = v.length) (p : Pos)
    (hw : walkableB g p = true) (q : Pos) (hq : q ∈ neighbors p) (hqv : q ∈ v) :
    p ∈ v := by
  by_contra hp
  have hrm : p ∈ rowMajor g := by
    rw [mem_rowMajor_iff]
    unfold walkableB at hw
    simp only [Bool.and_eq_true] at hw
    exact hw.1.1
  have hmem : p ∈ expandOnce g v :=
    (mem_expandOnce g v p).mpr (Or.inr ⟨hrm, hw, hp, q, hq, hqv⟩)
  unfold expandOnce at hfix hmem
  rw [List.length_append] at hfix
  have hf0 : ((rowMajor g).filter
      (fun r => walkableB g r && !(memB r v) && (neighbors r).any (fun q2 => memB q2 v))).length
      = 0 := by omega
  rw [List.length_eq_zero] at hf0
  rw [hf0, List.append_nil] at hmem
  exact hp hmem

theorem saturate_sub (g : Grid) (fuel : Nat) (v : List Pos) : v ⊆ saturate g fuel v := by
  induction fuel generalizing v with
  | zero => exact fun x hx => hx
  | succ n ih =>
    by_cases hlen : (expandOnce g v).length = v.length
    · rw [show saturate g (n + 1) v = v from by simp [saturate, hlen]]
      exact fun x hx => hx
    · rw [show saturate g (n + 1) v = saturate g n (expandOnce g v) from by
        simp [saturate, hlen]]
      exact fun x hx => ih (expandOnce g v) (subset_expandOnce g v hx)

theorem saturate_fix (g : Grid) (s : Pos) :
    ∀ (fuel : Nat) (v : List Pos), v.Nodup → (∀ x ∈ v, x ∈ s :: rowMajor g) →
      (rowMajor g).length + 1 ≤ fuel + v.length →
      (expandOnce g (saturate g fuel v)).length = (saturate g fuel v).length := by
  intro fuel
  induction fuel with
  | zero =>
    intro v hnd hsub hbound
    show (expandOnce g v).length = v.length
    have hall : ∀ p ∈ rowMajor g, p ∈ v := by
      have heq : v.toFinset = (s :: rowMajor g).toFinset := by
        apply Finset.eq_of_subset_of_card_le
        · intro x hx
          rw [List.mem_toFinset] at hx ⊢
          exact hsub x hx
        · rw [List.toFinset_card_of_nodup hnd]
          calc (s :: rowMajor g).toFinset.card ≤ (s :: rowMajor g).length :=
                List.toFinset_card_le _
            _ = (rowMajor g).length + 1 := by simp
            _ ≤ v.length := by simpa using hbound
      intro p hp
      have hptf : p ∈ v.toFinset := by
        rw [heq, List.mem_toFinset]
        exact List.mem_cons_of_mem _ hp
      rwa [List.mem_toFinset] at hptf
    unfold expandOnce
    rw [List.length_append]
    have hf0 : ((rowMajor g).filter
        (fun r => walkableB g r && !(memB r v) && (neighbors r).any (fun q2 => memB q2 v))).length
        = 0 := by
      rw [List.length_eq_zero, List.filter_eq_nil_iff]
      intro a ha hpred
      simp only [Bool.and_eq_true, Bool.not_eq_true'] at hpred
      exact absurd (hall a ha) ((memB_false_iff a v).mp hpred.1.2)
    omega
  | succ n ih =>
    intro v hnd hsub hbound
    by_cases hlen : (expandOnce g v).length = v.length
    · rw [show saturate g (n + 1) v = v from by simp [saturate, hlen]]
      exact hlen
    · rw [show saturate g (n + 1) v = saturate g n (expandOnce g v) from by
        simp [saturate, hlen]]
      apply ih (expandOnce g v) (expandOnce_nodup g v hnd)
      · intro x hx
        rcases (mem_expandOnce g v x).mp hx with h | ⟨hrm, -⟩
        · exact hsub x h
        · exact List.mem_cons_of_mem _ hrm
      · have hge := expandOnce_length_ge g v
        omega

theorem reachSet_complete (g : Grid) (s : Pos) (x : Pos) (hx : Reaches g s x) :
    x ∈ reachSet g s := by
  have hfix := saturate_fix g s (g.width * g.height) [s] (by simp)
    (by
      intro y hy
      rw [List.mem_singleton] at hy
      subst hy
      exact List.mem_cons_self _ _)
    (by simp [rowMajor_length])
  have hs : s ∈ reachSet g s := saturate_sub g _ [s] (List.mem_singleton_self s)
  unfold Reaches at hx
  induction hx with
  | refl => exact hs
  | tail hab hbc ih =>
    exact fixpoint_closed g (reachSet g s) hfix _ hbc.1 _ (neighbors_symm hbc.2) ih

theorem check_false_of_missed (g : Grid) (s : Pos) (p : Pos)
    (hw : walkableB g p = true) (hm : memB p (reachSet g s) = false) :
    (StairsAlwaysReachable g s false).1 = false := by
  unfold StairsAlwaysReachable
  have hp : p ∈ (rowMajor g).filter (fun r => walkableB g r && !(memB r (reachSet g s))) := by
    rw [List.mem_filter]
    refine ⟨?_, by simp [hw, hm]⟩
    rw [mem_rowMajor_iff]
    unfold walkableB at hw
    simp only [Bool.and_eq_true] at hw
    exact hw.1.1
  have hne : ¬((rowMajor g).filter
      (fun r => walkableB g r && !(memB r (reachSet g s)))).isEmpty = true := by
    rw [List.isEmpty_iff]
    intro h0
    rw [h0] at hp
    cases hp
  rw [if_neg hne]

theorem check_true_parts (g : Grid) (s : Pos)
    (hall : ∀ p, walkableB g p = true → memB p (reachSet g s) = true) :
    (StairsAlwaysReachable g s false).1 = true ∧ (StairsAlwaysReachable g s false).2 = g := by
  unfold StairsAlwaysReachable
  have hempty : ((rowMajor g).filter
      (fun r => walkableB g r && !(memB r (reachSet g s)))).isEmpty = true := by
    rw [List.isEmpty_iff, List.filter_eq_nil_iff]
    intro a ha hpred
    simp only [Bool.and_eq_true, Bool.not_eq_true'] at hpred
    have := hall a hpred.1
    rw [this] at hpred
    exact absurd hpred.2 (by simp)
  rw [if_pos hempty]
  exact ⟨rfl, rfl⟩

theorem check_visits_of_true (g : Grid) (s : Pos)
    (h : (StairsAlwaysReachable g s false).1 = true) :
    ∀ p, walkableB g p = true → memB p (reachSet g s) = true := by
  intro p hw
  by_contra hm
  rw [Bool.not_eq_true] at hm
  have := check_false_of_missed g s p hw hm
  rw [this] at h
  cases h

theorem check_snd_of_true (g : Grid) (s : Pos)
    (h : (StairsAlwaysReachable g s false).1 = true) :
    (StairsAlwaysReachable g s false).2 = g := by
  unfold StairsAlwaysReachable at h ⊢
  by_cases he : ((rowMajor g).filter
      (fun r => walkableB g r && !(memB r (reachSet g s)))).isEmpty = true
  · rw [if_pos he]
  · rw [if_neg he] at h
    cases h

/-- Claim C1: a floor accepted by the orchestrator on the normal
(non-fallback) path has every walkable tile visited by the traversal from the
stairs and carries no unreachable diagnostic flag; an attempt with any
walkable tile unvisited makes the reachability check fail instead. -/
theorem claim_C1 (attempt : Nat → Grid × Pos) (n : Nat) (g : Grid) (s : Pos)
    (hclean : ∀ i : Nat, ∀ p : Pos, ((attempt i).1.tile p).unreachableFlag = false)
    (hacc : orchestrate attempt n = GenResult.acceptedFloor g s) :
    (∀ p : Pos, walkableB g p = true → memB p (reachSet g s) = true) ∧
    (∀ p : Pos, (g.tile p).unreachableFlag = false) ∧
    (∀ (g0 : Grid) (s0 : Pos) (p : Pos), walkableB g0 p = true →
        memB p (reachSet g0 s0) = false → (StairsAlwaysReachable g0 s0 false).1 = false) := by
  have main : ∀ m, orchestrate attempt m = GenResult.acceptedFloor g s →
      (StairsAlwaysReachable g s false).1 = true ∧
        ∃ i, (attempt i).1 = g ∧ (attempt i).2 = s := by
    intro m
    induction m with
    | zero =>
      intro h
      exact GenResult.noConfusion h
    | succ m ih =>
      intro h
      unfold orchestrate at h
      by_cases hc : (StairsAlwaysReachable (attempt m).1 (attempt m).2 false).1 = true
      · rw [if_pos hc] at h
        injection h with hg hs
        have hsnd := check_snd_of_true (attempt m).1 (attempt m).2 hc
        have hgeq : (attempt m).1 = g := by rw [← hg, hsnd]
        have hseq : (attempt m).2 = s := hs
        rw [hgeq, hseq] at hc
        exact ⟨hc, m, hgeq, hseq⟩
      · rw [if_neg hc] at h
        exact ih h
  obtain ⟨hchk, i, hgi, hsi⟩ := main n hacc
  refine ⟨check_visits_of_true g s hchk, ?_,
    fun g0 s0 p hw hm => check_false_of_missed g0 s0 p hw hm⟩
  intro p
  rw [← hgi]
  exact hclean i p

/-- Witness for claim C1: an attempt producing a fully open 3-by-3 grid is
accepted on the first try, and the accepted floor is fully visited and free of
unreachable flags. -/
theorem claim_C1_witness :
    (∀ i : Nat, ∀ p : Pos, ((attemptOpen3 i).1.tile p).unreachableFlag = false) ∧
    (orchestrate attemptOpen3 1 = GenResult.acceptedFloor gridOpen3 (1, 1)) ∧
    (memB (2, 2) (reachSet gridOpen3 (1, 1)) = true) ∧
    ((gridOpen3.tile (0, 0)).unreachableFlag = false) :=
  ⟨fun _ _ => rfl, rfl,
    (claim_C1 attemptOpen3 1 gridOpen3 (1, 1) (fun _ _ => rfl) rfl).1 (2, 2) (by decide),
    (claim_C1 attemptOpen3 1 gridOpen3 (1, 1) (fun _ _ => rfl) rfl).2.1 (0, 0)⟩

theorem oneRoom_tile (w h : Nat) (p : Pos) :
    (GenerateOneRoomMonsterHouseFloor w h).tile p =
      if 1 ≤ p.1 ∧ p.1 ≤ w - 2 ∧ 1 ≤ p.2 ∧ p.2 ≤ h - 2 then
        { terrain := Terrain.normal, roomIndex := 0, inMonsterHouse := true }
      else
        { terrain := Terrain.wall,
          impassable := decide (p.1 = 0 ∨ p.1 = w - 1 ∨ p.2 = 0 ∨ p.2 = h - 1) } := rfl

theorem oneRoom_walkable (w h : Nat) (hw : 3 ≤ w) (hh : 3 ≤ h) (p : Pos) :
    walkableB (GenerateOneRoomMonsterHouseFloor w h) p = true ↔
      (1 ≤ p.1 ∧ p.1 ≤ w - 2 ∧ 1 ≤ p.2 ∧ p.2 ≤ h - 2) := by
  unfold walkableB inBoundsB
  rw [oneRoom_tile]
  rw [show (GenerateOneRoomMonsterHouseFloor w h).width = w from rfl]
  rw [show (GenerateOneRoomMonsterHouseFloor w h).height = h from rfl]
  by_cases hc : 1 ≤ p.1 ∧ p.1 ≤ w - 2 ∧ 1 ≤ p.2 ∧ p.2 ≤ h - 2
  · rw [if_pos hc]
    constructor
    · intro _
      exact hc
    · intro _
      have h1 : p.1 < w := by omega
      have h2 : p.2 < h := by omega
      simp [h1, h2]
  · rw [if_neg hc]
    constructor
    · intro hq
      simp at hq
    · intro hq
      exact absurd hq hc

theorem oneRoom_reach_x (w h : Nat) (hw : 3 ≤ w) (hh : 3 ≤ h) :
    ∀ d : Nat, 1 + d ≤ w - 2 →
      Reaches (GenerateOneRoomMonsterHouseFloor w h) (1, 1) (1 + d, 1) := by
  intro d
  induction d with
  | zero =>
    intro _
    exact Relation.ReflTransGen.refl
  | succ e ih =>
    intro hle
    refine Relation.ReflTransGen.tail (ih (by omega)) ?_
    constructor
    · rw [oneRoom_walkable w h hw hh]
      dsimp only
      omega
    · rw [mem_neighbors_iff]
      dsimp only
      omega

theorem oneRoom_reach_y (w h : Nat) (hw : 3 ≤ w) (hh : 3 ≤ h) (x : Nat)
    (hx1 : 1 ≤ x) (hx2 : x ≤ w - 2) :
    ∀ d : Nat, 1 + d ≤ h - 2 →
      Reaches (GenerateOneRoomMonsterHouseFloor w h) (x, 1) (x, 1 + d) := by
  intro d
  induction d with
  | zero =>
    intro _
    exact Relation.ReflTransGen.refl
  | succ e ih =>
    intro hle
    refine Relation.ReflTransGen.tail (ih (by omega)) ?_
    constructor
    · rw [oneRoom_walkable w h hw hh]
      dsimp only
      omega
    · rw [mem_neighbors_iff]
      dsimp only
      omega

theorem oneRoom_reach_from_corner (w h : Nat) (hw : 3 ≤ w) (hh : 3 ≤ h) (p : Pos)
    (hp : walkableB (GenerateOneRoomMonsterHouseFloor w h) p = true) :
    Reaches (GenerateOneRoomMonsterHouseFloor w h) (1, 1) p := by
  rw [oneRoom_walkable w h hw hh] at hp
  obtain ⟨h1, h2, h3, h4⟩ := hp
  have hx := oneRoom_reach_x w h hw hh (p.1 - 1) (by omega)
  have hy := oneRoom_reach_y w h hw hh p.1 h1 h2 (p.2 - 1) (by omega)
  have e1 : 1 + (p.1 - 1) = p.1 := by omega
  have e2 : 1 + (p.2 - 1) = p.2 := by omega
  rw [e1] at hx
  rw [e2] at hy
  exact Relation.ReflTransGen.trans hx hy

theorem reaches_symm (g : Grid) (p : Pos) (hp : walkableB g p = true) :
    ∀ q, Reaches g p q → Reaches g q p ∧ (q = p ∨ walkableB g q = true) := by
  intro q hq
  unfold Reaches at hq ⊢
  induction hq with
  | refl => exact ⟨Relation.ReflTransGen.refl, Or.inl rfl⟩
  | @tail b c hab hbc ih =>
    obtain ⟨hback, hbw⟩ := ih
    have hwb : walkableB g b = true := by
      rcases hbw with rfl | hw
      · exact hp
      · exact hw
    refine ⟨Relation.ReflTransGen.head ⟨hwb, neighbors_symm hbc.2⟩ hback, Or.inr hbc.1⟩

/-- Claim C2: for every supported grid size, the one-room Monster House
fallback layout passes the reachability check, its walkable tiles are all
mutually reachable, and the fallback transition taken after exhausting the
attempt budget produces it unconditionally, with no further failure path. -/
theorem claim_C2 (w h : Nat) (hw : 3 ≤ w) (hh : 3 ≤ h) :
    (StairsAlwaysReachable (GenerateOneRoomMonsterHouseFloor w h) (1, 1) false).1 = true ∧
    (∀ p q : Pos, walkableB (GenerateOneRoomMonsterHouseFloor w h) p = true →
        walkableB (GenerateOneRoomMonsterHouseFloor w h) q = true →
        Reaches (GenerateOneRoomMonsterHouseFloor w h) p q) ∧
    (∀ attempt : Nat → Grid × Pos,
        orchestrate attempt 0
          = GenResult.fallbackFloor
              (GenerateOneRoomMonsterHouseFloor FLOOR_WIDTH FLOOR_HEIGHT)) := by
  have hcorner : walkableB (GenerateOneRoomMonsterHouseFloor w h) (1, 1) = true := by
    rw [oneRoom_walkable w h hw hh]
    dsimp only
    omega
  refine ⟨?_, ?_, fun _ => rfl⟩
  · refine (check_true_parts _ _ ?_).1
    intro p hp
    rw [memB_iff]
    exact reachSet_complete _ _ p (oneRoom_reach_from_corner w h hw hh p hp)
  · intro p q hp hq
    have h1 := (reaches_symm _ _ hcorner p (oneRoom_reach_from_corner w h hw hh p hp)).1
    have h2 := oneRoom_reach_from_corner w h hw hh q hq
    exact Relation.ReflTransGen.trans h1 h2

/-- Witness for claim C2 at the concrete grid size 5 by 5. -/
theorem claim_C2_witness :
    (3 ≤ 5) ∧
    (StairsAlwaysReachable (GenerateOneRoomMonsterHouseFloor 5 5) (1, 1) false).1 = true :=
  ⟨by decide, (claim_C2 5 5 (by decide) (by decide)).1⟩

/-- Witness for claim C6 on a concrete grid containing an impassable wall. -/
theorem claim_C6_witness :
    ((⟨2, 2, fun _ => { terrain := .wall, impassable := true }⟩ : Grid).tile (0, 0)).impassable = true ∧
    (GenerateSecondaryTerrainFormations true ⟨2, 2, fun _ => { terrain := .wall, impassable := true }⟩ [3, 1, 0, 2]).tile (0, 0)
      = (⟨2, 2, fun _ => { terrain := .wall, impassable := true }⟩ : Grid).tile (0, 0) :=
  ⟨by decide,
    (claim_C6 true ⟨2, 2, fun _ => { terrain := .wall, impassable := true }⟩ [3, 1, 0, 2] (0, 0)).1
      (by decide)⟩

theorem filterLength_le_of_imp {α : Type} (l : List α) (f f2 : α → Bool)
    (h : ∀ a ∈ l, f2 a = true → f a = true) :
    (l.filter f2).length ≤ (l.filter f).length := by
  induction l with
  | nil => simp
  | cons a t ih =>
    have ht : ∀ b ∈ t, f2 b = true → f b = true := fun b hb => h b (List.mem_cons_of_mem a hb)
    cases h2 : f2 a with
    | true =>
      have h1 : f a = true := h a (List.mem_cons_self a t) h2
      simp only [List.filter_cons, h2, h1, if_true, List.length_cons]
      exact Nat.succ_le_succ (ih ht)
    | false =>
      simp only [List.filter_cons, h2, Bool.false_eq_true, if_false]
      cases h1 : f a with
      | true =>
        simp only [if_true, List.length_cons]
        exact Nat.le_succ_of_le (ih ht)
      | false =>
        simp only [Bool.false_eq_true, if_false]
        exact ih ht

theorem filterLength_lt_of_flip {α : Type} (l : List α) (f f2 : α → Bool) (r : α)
    (hr : r ∈ l) (hfr : f r = true) (hf2r : f2 r = false)
    (h : ∀ a ∈ l, f2 a = true → f a = true) :
    (l.filter f2).length < (l.filter f).length := by
  induction l with
  | nil => cases hr
  | cons a t ih =>
    have ht : ∀ b ∈ t, f2 b = true → f b = true := fun b hb => h b (List.mem_cons_of_mem a hb)
    rcases List.mem_cons.mp hr with rfl | hrt
    · simp only [List.filter_cons, hfr, hf2r, if_true, Bool.false_eq_true, if_false,
        List.length_cons]
      exact Nat.lt_succ_of_le (filterLength_le_of_imp t f f2 ht)
    · cases h2 : f2 a with
      | true =>
        have h1 : f a = true := h a (List.mem_cons_self a t) h2
        simp only [List.filter_cons, h2, h1, if_true, List.length_cons]
        exact Nat.succ_lt_succ (ih hrt ht)
      | false =>
        simp only [List.filter_cons, h2, Bool.false_eq_true, if_false]
        cases h1 : f a with
        | true =>
          simp only [if_true, List.length_cons]
          exact Nat.lt_succ_of_lt (ih hrt ht)
        | false =>
          simp only [Bool.false_eq_true, if_false]
          exact ih hrt ht

theorem setObstacleAt_dims (g : Grid) (p : Pos) (u : Bool) (ri : Nat) :
    (setObstacleAt g p u ri).width = g.width ∧ (setObstacleAt g p u ri).height = g.height := by
  unfold setObstacleAt setTile
  by_cases hb : inBoundsB g p = true <;> simp [hb]

theorem rowMajor_eq_of_dims (g g2 : Grid) (hw : g2.width = g.width)
    (hh : g2.height = g.height) : rowMajor g2 = rowMajor g := by
  unfold rowMajor posAt
  rw [hw, hh]

theorem setObstacleAt_tile (g : Grid) (p : Pos) (u : Bool) (ri : Nat) (q : Pos) :
    (setObstacleAt g p u ri).tile q =
      if q = p ∧ inBoundsB g p = true then SetTerrainObstacleChecked (g.tile p) u ri
      else g.tile q := by
  unfold setObstacleAt setTile
  by_cases hb : inBoundsB g p = true
  · by_cases hq : q = p <;> simp [hb, hq]
  · simp [hb]

theorem obstacle_terrain (t : Tile) (u : Bool) (ri : Nat) :
    (SetTerrainObstacleChecked t u ri).terrain ≠ Terrain.normal := by
  unfold SetTerrainObstacleChecked
  by_cases hc : (u && decide (t.roomIndex = ri)) = true <;> simp [hc]

theorem setObstacleAt_not_open (g : Grid) (p : Pos) (u : Bool) (ri : Nat) (q : Pos)
    (h : ((setObstacleAt g p u ri).tile q).terrain = Terrain.normal) :
    (g.tile q).terrain = Terrain.normal := by
  rw [setObstacleAt_tile] at h
  by_cases hc : q = p ∧ inBoundsB g p = true
  · rw [if_pos hc] at h
    exact absurd h (obstacle_terrain _ _ _)
  · rwa [if_neg hc] at h

theorem openCount_le_setObstacle (g : Grid) (p : Pos) (u : Bool) (ri : Nat) :
    openCount (setObstacleAt g p u ri) ≤ openCount g := by
  unfold openCount
  rw [rowMajor_eq_of_dims g (setObstacleAt g p u ri) (setObstacleAt_dims g p u ri).1
    (setObstacleAt_dims g p u ri).2]
  apply filterLength_le_of_imp
  intro a _ h2
  rw [decide_eq_true_eq] at h2 ⊢
  exact setObstacleAt_not_open g p u ri a h2

theorem openCount_lt_double (g : Grid) (mid dest : Pos) (u : Bool) (ri : Nat)
    (hdest : openInB g dest = true) :
    openCount (setObstacleAt (setObstacleAt g mid u ri) dest u ri) < openCount g := by
  have hdB : inBoundsB g dest = true := by
    unfold openInB at hdest
    simp only [Bool.and_eq_true] at hdest
    exact hdest.1
  have hdO : (g.tile dest).terrain = Terrain.normal := by
    unfold openInB at hdest
    simp only [Bool.and_eq_true, decide_eq_true_eq] at hdest
    exact hdest.2
  have hd1 : (setObstacleAt g mid u ri).width = g.width := (setObstacleAt_dims g mid u ri).1
  have hd2 : (setObstacleAt g mid u ri).height = g.height := (setObstacleAt_dims g mid u ri).2
  have hdims1 : (setObstacleAt (setObstacleAt g mid u ri) dest u ri).width = g.width := by
    rw [(setObstacleAt_dims _ dest u ri).1, hd1]
  have hdims2 : (setObstacleAt (setObstacleAt g mid u ri) dest u ri).height = g.height := by
    rw [(setObstacleAt_dims _ dest u ri).2, hd2]
  unfold openCount
  rw [rowMajor_eq_of_dims g _ hdims1 hdims2]
  apply filterLength_lt_of_flip _ _ _ dest
  · rw [mem_rowMajor_iff]
    exact hdB
  · rw [decide_eq_true_eq]
    exact hdO
  · rw [decide_eq_false_iff_not]
    have hdB1 : inBoundsB (setObstacleAt g mid u ri) dest = true := by
      unfold inBoundsB
      rw [hd1, hd2]
      unfold inBoundsB at hdB
      exact hdB
    rw [setObstacleAt_tile]
    rw [if_pos ⟨rfl, hdB1⟩]
    exact obstacle_terrain _ u ri
  · intro a _ h2
    rw [decide_eq_true_eq] at h2 ⊢
    exact setObstacleAt_not_open g mid u ri a
      (setObstacleAt_not_open (setObstacleAt g mid u ri) dest u ri a h2)

theorem mazeLineGo_terminal (bd : MazeBounds) (u : Bool) (ri : Nat) :
    ∀ (fuel : Nat) (g : Grid) (p : Pos) (rng : Rng), openCount g < fuel →
      validDirs (mazeLineGo bd u ri fuel g p rng).1 bd (mazeLineGo bd u ri fuel g p rng).2
        = [] := by
  intro fuel
  induction fuel with
  | zero =>
    intro g p rng h
    exact absurd h (Nat.not_lt_zero _)
  | succ n ih =>
    intro g p rng hcount
    by_cases hemp : (validDirs g bd p).isEmpty = true
    · rw [show mazeLineGo bd u ri (n + 1) g p rng = (g, p) from by
        simp [mazeLineGo, hemp]]
      exact List.isEmpty_iff.mp hemp
    · have hne : (validDirs g bd p).length ≠ 0 := by
        intro h0
        rw [List.length_eq_zero] at h0
        rw [h0] at hemp
        exact hemp rfl
      have hidx : (rngNext rng (validDirs g bd p).length).1 < (validDirs g bd p).length := by
        unfold rngNext
        cases rng with
        | nil => simpa using Nat.pos_of_ne_zero hne
        | cons x r => exact Nat.mod_lt _ (Nat.pos_of_ne_zero hne)
      have hd : (validDirs g bd p).getD ((rngNext rng (validDirs g bd p).length).1) 0
          ∈ validDirs g bd p := by
        rw [List.getD_eq_getElem _ _ hidx]
        exact List.getElem_mem hidx
      have hdd := hd
      unfold validDirs at hdd
      rw [List.mem_filter] at hdd
      have hopen : openInB g (mazeStepTarget
          ((validDirs g bd p).getD ((rngNext rng (validDirs g bd p).length).1) 0) p) = true := by
        have hdd2 := hdd.2
        simp only [Bool.and_eq_true] at hdd2
        exact hdd2.2
      have hlt := openCount_lt_double g
        (stepDir ((validDirs g bd p).getD ((rngNext rng (validDirs g bd p).length).1) 0) p)
        (mazeStepTarget ((validDirs g bd p).getD ((rngNext rng (validDirs g bd p).length).1) 0) p)
        u ri hopen
      simp only [mazeLineGo]
      rw [if_neg hemp]
      apply ih
      omega

/-- Claim C9: the maze-line random walk terminates for every starting point,
bounds, grid and random stream, and it terminates exactly when every
stride-two step destination is out of bounds or already non-open. -/
theorem claim_C9 (x0 y0 : Nat) (bd : MazeBounds) (useSecondary : Bool) (roomIdx : Nat)
    (g : Grid) (rng : Rng) :
    validDirs (GenerateMazeLine x0 y0 bd useSecondary roomIdx g rng).1 bd
        (GenerateMazeLine x0 y0 bd useSecondary roomIdx g rng).2 = [] ∧
    (∀ d : Nat, d < 4 →
        dirOkB bd (GenerateMazeLine x0 y0 bd useSecondary roomIdx g rng).2 d = false ∨
          openInB (GenerateMazeLine x0 y0 bd useSecondary roomIdx g rng).1
            (mazeStepTarget d (GenerateMazeLine x0 y0 bd useSecondary roomIdx g rng).2)
            = false) := by
  have hterm : validDirs (GenerateMazeLine x0 y0 bd useSecondary roomIdx g rng).1 bd
      (GenerateMazeLine x0 y0 bd useSecondary roomIdx g rng).2 = [] := by
    unfold GenerateMazeLine
    apply mazeLineGo_terminal
    have hle := openCount_le_setObstacle g (x0, y0) useSecondary roomIdx
    omega
  refine ⟨hterm, ?_⟩
  intro d hd4
  unfold validDirs at hterm
  rw [List.filter_eq_nil_iff] at hterm
  have hdmem : d ∈ [0, 1, 2, 3] := by
    simp only [List.mem_cons, List.not_mem_nil, or_false]
    omega
  have hpred := hterm d hdmem
  cases h1 : dirOkB bd (GenerateMazeLine x0 y0 bd useSecondary roomIdx g rng).2 d with
  | false => exact Or.inl rfl
  | true =>
    cases h2 : openInB (GenerateMazeLine x0 y0 bd useSecondary roomIdx g rng).1
        (mazeStepTarget d (GenerateMazeLine x0 y0 bd useSecondary roomIdx g rng).2) with
    | false => exact Or.inr rfl
    | true =>
      exact absurd (by rw [h1, h2]; rfl) hpred

/-- Witness for claim C9: the maze-line walk on a concrete open 5-by-5 grid
ends in a state with no available step. -/
theorem claim_C9_witness :
    ((0 : Nat) < 4) ∧
    (dirOkB ⟨0, 0, 4, 4⟩ (GenerateMazeLine 2 2 ⟨0, 0, 4, 4⟩ false 0 mazeDemoGrid [1, 2, 0]).2 0
        = false ∨
      openInB (GenerateMazeLine 2 2 ⟨0, 0, 4, 4⟩ false 0 mazeDemoGrid [1, 2, 0]).1
        (mazeStepTarget 0 (GenerateMazeLine 2 2 ⟨0, 0, 4, 4⟩ false 0 mazeDemoGrid [1, 2, 0]).2)
        = false) :=
  ⟨by decide, (claim_C9 2 2 ⟨0, 0, 4, 4⟩ false 0 mazeDemoGrid [1, 2, 0]).2 0 (by decide)⟩

theorem shuffleGo_mem (n : Nat) (l : List Pos) (rng : Rng) (x : Pos)
    (hx : x ∈ (shuffleGo n l rng).1) : x ∈ l := by
  induction n generalizing l rng with
  | zero => exact hx
  | succ m ih =>
    unfold shuffleGo at hx
    by_cases hemp : l.isEmpty = true
    · rw [if_pos hemp] at hx
      exact hx
    · rw [if_neg hemp] at hx
      have hne : l.length ≠ 0 := by
        intro h0
        rw [List.length_eq_zero] at h0
        rw [h0] at hemp
        exact hemp rfl
      have hidx : (rngNext rng l.length).1 < l.length := by
        unfold rngNext
        cases rng with
        | nil => simpa using Nat.pos_of_ne_zero hne
        | cons a r => exact Nat.mod_lt _ (Nat.pos_of_ne_zero hne)
      rcases List.mem_cons.mp hx with rfl | htail
      · rw [List.getD_eq_getElem _ _ hidx]
        exact List.getElem_mem hidx
      · exact (List.eraseIdx_sublist l ((rngNext rng l.length).1)).subset (ih _ _ htail)

theorem shuffle_mem (l : List Pos) (rng : Rng) (x : Pos)
    (hx : x ∈ (ShuffleSpawnPositions l rng).1) : x ∈ l :=
  shuffleGo_mem l.length l rng x hx

theorem setSpawnFlagFor_shop (k : SpawnKind) (t : Tile) :
    (setSpawnFlagFor k t).inKecleonShop = t.inKecleonShop := by
  cases k <;> rfl

theorem foldPut_shop (L : List Pos) (g : Grid) (f : Tile → Tile)
    (hf : ∀ t, (f t).inKecleonShop = t.inKecleonShop) (q : Pos) :
    ((L.foldl (fun g2 p => putTile g2 p (f (g2.tile p))) g).tile q).inKecleonShop
      = (g.tile q).inKecleonShop := by
  induction L generalizing g with
  | nil => rfl
  | cons a rest ih =>
    simp only [List.foldl_cons]
    rw [ih]
    rw [putTile_tile]
    by_cases hc : inBoundsB g a = true ∧ q = a
    · rw [if_pos hc, hf, hc.2]
    · rw [if_neg hc]

theorem placeKind_shop (g : Grid) (eligB : Grid → Pos → Bool) (count : Nat) (k : SpawnKind)
    (rng : Rng) (q : Pos) :
    (((placeKind g eligB count k rng).1).tile q).inKecleonShop
      = (g.tile q).inKecleonShop := by
  unfold placeKind
  exact foldPut_shop _ g _ (setSpawnFlagFor_shop k) q

theorem placeKind_records (g : Grid) (eligB : Grid → Pos → Bool) (count : Nat) (k : SpawnKind)
    (rng : Rng) (rec : SpawnRecord) (h : rec ∈ (placeKind g eligB count k rng).2.1) :
    rec.kind = k ∧ eligB g rec.pos = true := by
  unfold placeKind at h
  simp only [List.mem_map] at h
  obtain ⟨p, hp, rfl⟩ := h
  have hp2 : p ∈ (ShuffleSpawnPositions ((rowMajor g).filter (eligB g)) rng).1 :=
    List.mem_of_mem_take hp
  have hp3 : p ∈ (rowMajor g).filter (eligB g) := shuffle_mem _ rng p hp2
  rw [List.mem_filter] at hp3
  exact ⟨rfl, hp3.2⟩

theorem runCategory_shop (st : Grid × List SpawnRecord × Rng) (c : SpawnCategory) (q : Pos) :
    (((runCategory st c).1).tile q).inKecleonShop = ((st.1).tile q).inKecleonShop := by
  unfold runCategory
  exact placeKind_shop st.1 c.eligB c.count c.kind st.2.2 q

theorem catsFold_shop (cats : List SpawnCategory) (st : Grid × List SpawnRecord × Rng)
    (q : Pos) :
    (((cats.foldl runCategory st).1).tile q).inKecleonShop
      = ((st.1).tile q).inKecleonShop := by
  induction cats generalizing st with
  | nil => rfl
  | cons c cs ih =>
    simp only [List.foldl_cons]
    rw [ih (runCategory st c)]
    exact runCategory_shop st c q

theorem catsFold_records (cats : List SpawnCategory) (st : Grid × List SpawnRecord × Rng)
    (rec : SpawnRecord) (h : rec ∈ (cats.foldl runCategory st).2.1) :
    rec ∈ st.2.1 ∨ ∃ c ∈ cats, rec.kind = c.kind ∧ ∃ g2 : Grid,
      (∀ q : Pos, ((g2).tile q).inKecleonShop = ((st.1).tile q).inKecleonShop) ∧
        c.eligB g2 rec.pos = true := by
  induction cats generalizing st with
  | nil => exact Or.inl h
  | cons c cs ih =>
    simp only [List.foldl_cons] at h
    rcases ih (runCategory st c) h with hbase | ⟨c2, hc2, hk2, g2, hg2, he2⟩
    · unfold runCategory at hbase
      simp only [List.mem_append] at hbase
      rcases hbase with hold | hnew
      · exact Or.inl hold
      · obtain ⟨hk, he⟩ := placeKind_records st.1 c.eligB c.count c.kind st.2.2 rec hnew
        exact Or.inr ⟨c, List.mem_cons_self c cs, hk, st.1, fun _ => rfl, he⟩
    · refine Or.inr ⟨c2, List.mem_cons_of_mem c hc2, hk2, g2, ?_, he2⟩
      intro q
      rw [hg2 q]
      exact runCategory_shop st c q

theorem normalItemElig_shop (g : Grid) (p : Pos) (h : normalItemEligB g p = true) :
    (g.tile p).inKecleonShop = false := by
  unfold normalItemEligB at h
  simp only [Bool.and_eq_true, Bool.not_eq_true'] at h
  exact h.1.1.1.2

theorem normalTrapElig_shop (g : Grid) (p : Pos) (h : normalTrapEligB g p = true) :
    (g.tile p).inKecleonShop = false := by
  unfold normalTrapEligB at h
  simp only [Bool.and_eq_true, Bool.not_eq_true'] at h
  exact h.1.1.1.2

theorem normalEnemyElig_shop (g : Grid) (p : Pos) (h : normalEnemyEligB g p = true) :
    (g.tile p).inKecleonShop = false := by
  unfold normalEnemyEligB at h
  simp only [Bool.and_eq_true, Bool.not_eq_true'] at h
  exact h.1.1.1.1.1.1.2

theorem cats_kind_shop (props : floor_properties) (emptyMH : Bool) (c : SpawnCategory)
    (hc : c ∈ nonEnemyCats props emptyMH ∨ c ∈ enemyCats props emptyMH)
    (hk : c.kind = SpawnKind.normalItem ∨ c.kind = SpawnKind.normalTrap ∨
      c.kind = SpawnKind.normalEnemy) :
    ∀ (g2 : Grid) (p : Pos), c.eligB g2 p = true → (g2.tile p).inKecleonShop = false := by
  rcases hc with hc | hc
  · unfold nonEnemyCats at hc
    simp only [List.mem_cons, List.not_mem_nil, or_false] at hc
    rcases hc with rfl | rfl | rfl | rfl | rfl | rfl | rfl | rfl
    · rcases hk with hk | hk | hk <;> simp at hk
    · rcases hk with hk | hk | hk <;> simp at hk
    · exact fun g2 p => normalItemElig_shop g2 p
    · rcases hk with hk | hk | hk <;> simp at hk
    · rcases hk with hk | hk | hk <;> simp at hk
    · exact fun g2 p => normalTrapElig_shop g2 p
    · rcases hk with hk | hk | hk <;> simp at hk
    · rcases hk with hk | hk | hk <;> simp at hk
  · unfold enemyCats at hc
    simp only [List.mem_cons, List.not_mem_nil, or_false] at hc
    rcases hc with rfl | rfl
    · exact fun g2 p => normalEnemyElig_shop g2 p
    · rcases hk with hk | hk | hk <;> simp at hk

/-- Claim C8: on a floor containing a tagged Kecleon shop, neither
entity-placement pass ever produces a normal item, normal trap or normal
enemy spawn record on a shop tile. -/
theorem claim_C8 (g : Grid) (props : floor_properties) (emptyMH : Bool) (rng : Rng)
    (rec : SpawnRecord) (hrec : rec ∈ (spawnAll g props emptyMH rng).2.1)
    (hkind : rec.kind = SpawnKind.normalItem ∨ rec.kind = SpawnKind.normalTrap ∨
      rec.kind = SpawnKind.normalEnemy) :
    (g.tile rec.pos).inKecleonShop = false := by
  unfold spawnAll at hrec
  simp only [List.mem_append] at hrec
  rcases hrec with h1 | h2
  · unfold SpawnNonEnemies runCategories at h1
    rcases catsFold_records _ _ rec h1 with hnil | ⟨c, hcmem, hck, g2, hshop, helig⟩
    · cases hnil
    · have := cats_kind_shop props emptyMH c (Or.inl hcmem) (by rw [hck] at hkind; exact hkind) g2 rec.pos helig
      rw [hshop rec.pos] at this
      exact this
  · unfold SpawnEnemies runCategories at h2
    rcases catsFold_records _ _ rec h2 with hnil | ⟨c, hcmem, hck, g2, hshop, helig⟩
    · cases hnil
    · have hsh := cats_kind_shop props emptyMH c (Or.inr hcmem)
        (by rw [hck] at hkind; exact hkind) g2 rec.pos helig
      rw [hshop rec.pos] at hsh
      have hpass1 : (((SpawnNonEnemies g props emptyMH rng).1).tile rec.pos).inKecleonShop
          = (g.tile rec.pos).inKecleonShop := by
        unfold SpawnNonEnemies runCategories
        exact catsFold_shop _ _ rec.pos
      rw [hpass1] at hsh
      exact hsh

/-- Witness for claim C8: a concrete run on a grid with a tagged Kecleon
shop tile places its normal item outside the shop. -/
theorem claim_C8_witness :
    ((⟨SpawnKind.normalItem, (2, 1)⟩ : SpawnRecord)
        ∈ (spawnAll shopDemoGrid ⟨1, 0, 0, 0, 0, 0, 0, 0, false, false, 0⟩ false
            [0, 1, 2, 3, 4, 5]).2.1) ∧
    ((⟨SpawnKind.normalItem, (2, 1)⟩ : SpawnRecord).kind = SpawnKind.normalItem ∨
      (⟨SpawnKind.normalItem, (2, 1)⟩ : SpawnRecord).kind = SpawnKind.normalTrap ∨
      (⟨SpawnKind.normalItem, (2, 1)⟩ : SpawnRecord).kind = SpawnKind.normalEnemy) ∧
    (shopDemoGrid.tile ((⟨SpawnKind.normalItem, (2, 1)⟩ : SpawnRecord).pos)).inKecleonShop
      = false :=
  ⟨by decide, by decide,
    claim_C8 shopDemoGrid ⟨1, 0, 0, 0, 0, 0, 0, 0, false, false, 0⟩ false [0, 1, 2, 3, 4, 5]
      ⟨SpawnKind.normalItem, (2, 1)⟩ (by decide) (by decide)⟩

/-- Claim C4: two complete generation runs with an identical floor-properties
value and an identical random stream produce bit-identical serialized tile
grids and identical spawn-record lists in identical order. -/
theorem claim_C4 (attempt : Nat → Grid × Pos) (props1 props2 : floor_properties)
    (emptyMH : Bool) (rng1 rng2 : Rng) (hp : props1 = props2) (hr : rng1 = rng2) :
    serializeGrid (generate_standard_floor attempt props1 emptyMH rng1).1
      = serializeGrid (generate_standard_floor attempt props2 emptyMH rng2).1 ∧
    (generate_standard_floor attempt props1 emptyMH rng1).2
      = (generate_standard_floor attempt props2 emptyMH rng2).2 := by
  subst hp
  subst hr
  exact ⟨rfl, rfl⟩

/-- Witness for claim C4 on a concrete attempt, properties value and random
stream. -/
theorem claim_C4_witness :
    ((⟨1, 0, 0, 0, 0, 0, 0, 0, false, false, 1⟩ : floor_properties)
        = ⟨1, 0, 0, 0, 0, 0, 0, 0, false, false, 1⟩) ∧
    (([2, 1] : Rng) = [2, 1]) ∧
    serializeGrid (generate_standard_floor attemptOpen3
        ⟨1, 0, 0, 0, 0, 0, 0, 0, false, false, 1⟩ false [2, 1]).1
      = serializeGrid (generate_standard_floor attemptOpen3
          ⟨1, 0, 0, 0, 0, 0, 0, 0, false, false, 1⟩ false [2, 1]).1 ∧
    (generate_standard_floor attemptOpen3
        ⟨1, 0, 0, 0, 0, 0, 0, 0, false, false, 1⟩ false [2, 1]).2
      = (generate_standard_floor attemptOpen3
          ⟨1, 0, 0, 0, 0, 0, 0, 0, false, false, 1⟩ false [2, 1]).2 :=
  ⟨rfl, rfl,
    (claim_C4 attemptOpen3 _ _ false _ _ rfl rfl).1,
    (claim_C4 attemptOpen3 _ _ false _ _ rfl rfl).2⟩

theorem scanIdx_lt_total (g : Grid) (p : Pos) (hp : inBoundsB g p = true) :
    scanIdx g p < g.width * g.height := by
  unfold inBoundsB at hp
  simp only [Bool.and_eq_true, decide_eq_true_eq] at hp
  obtain ⟨h1, h2⟩ := hp
  unfold scanIdx
  calc p.2 * g.width + p.1 < p.2 * g.width + g.width := by omega
    _ = (p.2 + 1) * g.width := by ring
    _ ≤ g.height * g.width := Nat.mul_le_mul_right _ (by omega)
    _ = g.width * g.height := Nat.mul_comm _ _

theorem posAt_scanIdx (g : Grid) (p : Pos) (hp : inBoundsB g p = true) :
    posAt g (scanIdx g p) = p := by
  unfold inBoundsB at hp
  simp only [Bool.and_eq_true, decide_eq_true_eq] at hp
  obtain ⟨h1, h2⟩ := hp
  unfold posAt scanIdx
  have hmod : (p.2 * g.width + p.1) % g.width = p.1 := by
    rw [Nat.add_comm, Nat.add_mul_mod_self_right, Nat.mod_eq_of_lt h1]
  have hdiv : (p.2 * g.width + p.1) / g.width = p.2 := by
    rw [Nat.add_comm, Nat.add_mul_div_right _ _ (by omega : 0 < g.width),
      Nat.div_eq_of_lt h1]
    omega
  rw [hmod, hdiv]

theorem scanIdx_posAt (g : Grid) (k : Nat) (hk : k < g.width * g.height) :
    scanIdx g (posAt g k) = k := by
  unfold scanIdx posAt
  rw [Nat.mul_comm]
  exact Nat.div_add_mod k g.width

theorem posAt_mem_rowMajor (g : Grid) (k : Nat) (hk : k < g.width * g.height) :
    posAt g k ∈ rowMajor g := by
  unfold rowMajor
  exact List.mem_map_of_mem _ (List.mem_range.mpr hk)

theorem posAt_inBounds (g : Grid) (k : Nat) (hk : k < g.width * g.height) :
    inBoundsB g (posAt g k) = true :=
  (mem_rowMajor_iff g _).mp (posAt_mem_rowMajor g k hk)

theorem scanIdx_inj (g : Grid) (p q : Pos) (hp : inBoundsB g p = true)
    (hq : inBoundsB g q = true) (h : scanIdx g p = scanIdx g q) : p = q := by
  have hpq := posAt_scanIdx g p hp
  rw [h, posAt_scanIdx g q hq] at hpq
  exact hpq.symm

theorem mem_neighborsIn (g : Grid) (p b : Pos) :
    b ∈ neighborsIn g p ↔ b ∈ neighbors p ∧ inBoundsB g b = true := by
  unfold neighborsIn
  rw [List.mem_filter]

theorem neighborsIn_eq_of_dims (g g2 : Grid) (hw : g2.width = g.width)
    (hh : g2.height = g.height) (p : Pos) : neighborsIn g2 p = neighborsIn g p := by
  unfold neighborsIn
  apply List.filter_congr
  intro a _
  unfold inBoundsB
  rw [hw, hh]

theorem marksB_iff (g : Grid) (b p : Pos) :
    marksB g b p = true ↔
      ((g.tile b).terrain = Terrain.normal ∧
        ((g.tile b).roomIndex = HALLWAY_SENTINEL ∨ (g.tile b).roomIndex = ANCHOR_SENTINEL) ∧
        (g.tile p).terrain = Terrain.normal ∧
        (g.tile p).roomIndex ≠ HALLWAY_SENTINEL ∧
        ((g.tile p).roomIndex = ANCHOR_SENTINEL → scanIdx g b < scanIdx g p)) := by
  unfold marksB
  simp only [Bool.and_eq_true, Bool.or_eq_true, Bool.not_eq_true', decide_eq_true_eq,
    decide_eq_false_iff_not]
  constructor
  · rintro ⟨⟨⟨⟨h1, h2⟩, h3⟩, h4⟩, h5⟩
    refine ⟨h1, h2, h3, h4, ?_⟩
    intro ha
    rcases h5 with h5 | h5
    · exact absurd ha h5
    · exact h5
  · rintro ⟨h1, h2, h3, h4, h5⟩
    refine ⟨⟨⟨⟨h1, h2⟩, h3⟩, h4⟩, ?_⟩
    by_cases ha : (g.tile p).roomIndex = ANCHOR_SENTINEL
    · exact Or.inr (h5 ha)
    · exact Or.inl ha

theorem markJunction_idem (t : Tile) :
    markJunction (markJunction t) = markJunction t := rfl

theorem reclassifyAnchor_dims (g : Grid) (p : Pos) :
    (reclassifyAnchor g p).width = g.width ∧ (reclassifyAnchor g p).height = g.height := by
  unfold reclassifyAnchor setTile
  by_cases hc : (g.tile p).roomIndex = ANCHOR_SENTINEL <;> simp [hc]

theorem reclassifyAnchor_tile (g : Grid) (p q : Pos) :
    (reclassifyAnchor g p).tile q =
      if q = p ∧ (g.tile p).roomIndex = ANCHOR_SENTINEL then
        { g.tile p with roomIndex := HALLWAY_SENTINEL }
      else g.tile q := by
  unfold reclassifyAnchor setTile
  by_cases hc : (g.tile p).roomIndex = ANCHOR_SENTINEL
  · by_cases hq : q = p <;> simp [hc, hq]
  · simp [hc]

theorem foldMark_dims (L : List Pos) (g : Grid) :
    ((L.foldl (fun g2 a =>
        if (g2.tile a).terrain = Terrain.normal ∧ (g2.tile a).roomIndex ≠ HALLWAY_SENTINEL then
          setTile g2 a (markJunction (g2.tile a))
        else g2) g).width = g.width) ∧
    ((L.foldl (fun g2 a =>
        if (g2.tile a).terrain = Terrain.normal ∧ (g2.tile a).roomIndex ≠ HALLWAY_SENTINEL then
          setTile g2 a (markJunction (g2.tile a))
        else g2) g).height = g.height) := by
  induction L generalizing g with
  | nil => exact ⟨rfl, rfl⟩
  | cons a rest ih =>
    simp only [List.foldl_cons]
    obtain ⟨ihw, ihh⟩ := ih (if (g.tile a).terrain = Terrain.normal ∧
      (g.tile a).roomIndex ≠ HALLWAY_SENTINEL then setTile g a (markJunction (g.tile a)) else g)
    rw [ihw, ihh]
    by_cases hc : (g.tile a).terrain = Terrain.normal ∧ (g.tile a).roomIndex ≠ HALLWAY_SENTINEL
      <;> simp [hc, setTile]

theorem foldMark_tile (L : List Pos) (g : Grid) (p : Pos) :
    ((L.foldl (fun g2 a =>
        if (g2.tile a).terrain = Terrain.normal ∧ (g2.tile a).roomIndex ≠ HALLWAY_SENTINEL then
          setTile g2 a (markJunction (g2.tile a))
        else g2) g).tile p)
      = if p ∈ L ∧ (g.tile p).terrain = Terrain.normal ∧
            (g.tile p).roomIndex ≠ HALLWAY_SENTINEL then
          markJunction (g.tile p)
        else g.tile p := by
  induction L generalizing g with
  | nil => simp
  | cons a rest ih =>
    simp only [List.foldl_cons]
    set g1 := if (g.tile a).terrain = Terrain.normal ∧ (g.tile a).roomIndex ≠ HALLWAY_SENTINEL
      then setTile g a (markJunction (g.tile a)) else g with hg1
    rw [ih g1]
    have htile : ∀ r : Pos, (g1.tile r).terrain = (g.tile r).terrain ∧
        (g1.tile r).roomIndex = (g.tile r).roomIndex := by
      intro r
      rw [hg1]
      by_cases hca : (g.tile a).terrain = Terrain.normal ∧ (g.tile a).roomIndex ≠ HALLWAY_SENTINEL
      · rw [if_pos hca]
        unfold setTile markJunction
        by_cases hra : r = a
        · subst hra
          simp
        · simp [hra]
      · rw [if_neg hca]
        exact ⟨rfl, rfl⟩
    obtain ⟨hterr, hroom⟩ := htile p
    rw [hterr, hroom]
    by_cases hpa : p = a
    · subst hpa
      by_cases hcp : (g.tile p).terrain = Terrain.normal ∧ (g.tile p).roomIndex ≠ HALLWAY_SENTINEL
      · have hg1p : g1.tile p = markJunction (g.tile p) := by
          rw [hg1, if_pos hcp]
          unfold setTile
          simp
        rw [hg1p, markJunction_idem]
        by_cases hmem : p ∈ rest <;> simp [hmem, hcp]
      · have hg1p : g1.tile p = g.tile p := by rw [hg1, if_neg hcp]
        rw [hg1p]
        simp [hcp]
    · have hg1p : g1.tile p = g.tile p := by
        rw [hg1]
        by_cases hca : (g.tile a).terrain = Terrain.normal ∧
            (g.tile a).roomIndex ≠ HALLWAY_SENTINEL
        · rw [if_pos hca]
          unfold setTile
          simp [hpa]
        · rw [if_neg hca]
      rw [hg1p]
      by_cases hmem : p ∈ rest <;>
        by_cases hcp : (g.tile p).terrain = Terrain.normal ∧
          (g.tile p).roomIndex ≠ HALLWAY_SENTINEL <;>
          simp [List.mem_cons, hpa, hmem, hcp]

theorem visitNeighbors_tile (g : Grid) (q p : Pos) :
    (visitNeighbors g q).tile p =
      if p ∈ neighborsIn g q ∧ (g.tile p).terrain = Terrain.normal ∧
          (g.tile p).roomIndex ≠ HALLWAY_SENTINEL then
        markJunction (g.tile p)
      else g.tile p := by
  unfold visitNeighbors
  exact foldMark_tile _ g p

theorem visitNeighbors_dims (g : Grid) (q : Pos) :
    (visitNeighbors g q).width = g.width ∧ (visitNeighbors g q).height = g.height := by
  unfold visitNeighbors
  exact foldMark_dims _ g

theorem junctionInv_step (g0 g : Grid) (k : Nat) (hk : k < g0.width * g0.height)
    (hinv : junctionInv g0 g k) :
    junctionInv g0 (visitTile g (posAt g0 k)) (k + 1) := by
  obtain ⟨hW, hH, hFrame, hTerr, hRoom, hJunc⟩ := hinv
  have hqB : inBoundsB g0 (posAt g0 k) = true := posAt_inBounds g0 k hk
  have hqidx : scanIdx g0 (posAt g0 k) = k := scanIdx_posAt g0 k hk
  generalize hqdef : posAt g0 k = q at hqB hqidx ⊢
  have hqroom : (g.tile q).roomIndex = (g0.tile q).roomIndex := by
    rw [hRoom _ hqB]
    have hno : ¬((g0.tile q).roomIndex = ANCHOR_SENTINEL ∧ scanIdx g0 q < k) := by
      rintro ⟨-, hlt⟩
      rw [hqidx] at hlt
      exact Nat.lt_irrefl _ hlt
    rw [if_neg hno]
  have hg1tile := reclassifyAnchor_tile g q
  have hg1W : (reclassifyAnchor g q).width = g0.width := by
    rw [(reclassifyAnchor_dims g q).1, hW]
  have hg1H : (reclassifyAnchor g q).height = g0.height := by
    rw [(reclassifyAnchor_dims g q).2, hH]
  have hg1terr : ∀ r : Pos, ((reclassifyAnchor g q).tile r).terrain = (g0.tile r).terrain := by
    intro r
    rw [hg1tile r]
    by_cases hc : r = q ∧ (g.tile q).roomIndex = ANCHOR_SENTINEL
    · rw [if_pos hc, hc.1]
      exact hTerr q
    · rw [if_neg hc]
      exact hTerr r
  have hg1junc : ∀ r : Pos,
      ((reclassifyAnchor g q).tile r).junction = (g.tile r).junction := by
    intro r
    rw [hg1tile r]
    by_cases hc : r = q ∧ (g.tile q).roomIndex = ANCHOR_SENTINEL
    · rw [if_pos hc, hc.1]
    · rw [if_neg hc]
  have hg1room : ∀ r : Pos, ((reclassifyAnchor g q).tile r).roomIndex =
      (if r = q ∧ (g.tile q).roomIndex = ANCHOR_SENTINEL then HALLWAY_SENTINEL
        else (g.tile r).roomIndex) := by
    intro r
    rw [hg1tile r]
    by_cases hc : r = q ∧ (g.tile q).roomIndex = ANCHOR_SENTINEL
    · rw [if_pos hc, if_pos hc]
    · rw [if_neg hc, if_neg hc]
  have hg1frame : ∀ r : Pos, inBoundsB g0 r = false →
      (reclassifyAnchor g q).tile r = g0.tile r := by
    intro r hrB
    rw [hg1tile r]
    have hrq : ¬(r = q ∧ (g.tile q).roomIndex = ANCHOR_SENTINEL) := by
      rintro ⟨rfl, -⟩
      rw [hqB] at hrB
      cases hrB
    rw [if_neg hrq]
    exact hFrame r hrB
  have hRoomNew : ∀ r : Pos, inBoundsB g0 r = true →
      ((reclassifyAnchor g q).tile r).roomIndex =
        (if (g0.tile r).roomIndex = ANCHOR_SENTINEL ∧ scanIdx g0 r < k + 1 then
          HALLWAY_SENTINEL else (g0.tile r).roomIndex) := by
    intro r hrB
    rw [hg1room r]
    by_cases hrq : r = q
    · subst hrq
      by_cases hFE : (g0.tile r).roomIndex = ANCHOR_SENTINEL
      · rw [if_pos ⟨rfl, by rw [hqroom]; exact hFE⟩,
          if_pos ⟨hFE, by rw [hqidx]; omega⟩]
      · rw [if_neg (fun hc => hFE (by rw [← hqroom]; exact hc.2)),
          if_neg (fun hc => hFE hc.1), hqroom]
    · rw [if_neg (fun hc => hrq hc.1), hRoom r hrB]
      have hidxne : scanIdx g0 r ≠ k := by
        intro he
        exact hrq (scanIdx_inj g0 r q hrB hqB (by rw [he, hqidx]))
      by_cases hFE : (g0.tile r).roomIndex = ANCHOR_SENTINEL
      · by_cases hlt : scanIdx g0 r < k
        · rw [if_pos ⟨hFE, hlt⟩, if_pos ⟨hFE, by omega⟩]
        · rw [if_neg (fun hc => hlt hc.2), if_neg (fun hc => by
            have := hc.2
            omega)]
      · rw [if_neg (fun hc => hFE hc.1), if_neg (fun hc => hFE hc.1)]
  have hCroom : ((reclassifyAnchor g q).tile q).roomIndex =
      (if (g0.tile q).roomIndex = ANCHOR_SENTINEL then HALLWAY_SENTINEL
        else (g0.tile q).roomIndex) := by
    rw [hg1room q]
    by_cases hFE : (g0.tile q).roomIndex = ANCHOR_SENTINEL
    · rw [if_pos ⟨rfl, by rw [hqroom]; exact hFE⟩, if_pos hFE]
    · rw [if_neg (fun hc => hFE (by rw [← hqroom]; exact hc.2)), if_neg hFE, hqroom]
  unfold visitTile
  by_cases hC : ((reclassifyAnchor g q).tile q).roomIndex = HALLWAY_SENTINEL ∧
      ((reclassifyAnchor g q).tile q).terrain = Terrain.normal
  · rw [if_pos hC]
    have hqopen : (g0.tile q).terrain = Terrain.normal := by
      rw [← hg1terr q]
      exact hC.2
    have hqhall : (g0.tile q).roomIndex = HALLWAY_SENTINEL ∨
        (g0.tile q).roomIndex = ANCHOR_SENTINEL := by
      by_cases hFE : (g0.tile q).roomIndex = ANCHOR_SENTINEL
      · exact Or.inr hFE
      · left
        have := hC.1
        rw [hCroom, if_neg hFE] at this
        exact this
    have hg2tile : ∀ r : Pos, (visitNeighbors (reclassifyAnchor g q) q).tile r =
        (if r ∈ neighborsIn g0 q ∧
            ((reclassifyAnchor g q).tile r).terrain = Terrain.normal ∧
            ((reclassifyAnchor g q).tile r).roomIndex ≠ HALLWAY_SENTINEL then
          markJunction ((reclassifyAnchor g q).tile r)
        else (reclassifyAnchor g q).tile r) := by
      intro r
      rw [visitNeighbors_tile]
      rw [neighborsIn_eq_of_dims g0 (reclassifyAnchor g q) hg1W hg1H q]
    refine ⟨?_, ?_, ?_, ?_, ?_, ?_⟩
    · rw [(visitNeighbors_dims _ q).1, hg1W]
    · rw [(visitNeighbors_dims _ q).2, hg1H]
    · intro r hrB
      rw [hg2tile r]
      have hno : ¬(r ∈ neighborsIn g0 q ∧
          ((reclassifyAnchor g q).tile r).terrain = Terrain.normal ∧
          ((reclassifyAnchor g q).tile r).roomIndex ≠ HALLWAY_SENTINEL) := by
        rintro ⟨hmem, -, -⟩
        have := ((mem_neighborsIn g0 q r).mp hmem).2
        rw [hrB] at this
        cases this
      rw [if_neg hno]
      exact hg1frame r hrB
    · intro r
      rw [hg2tile r]
      by_cases hc : r ∈ neighborsIn g0 q ∧
          ((reclassifyAnchor g q).tile r).terrain = Terrain.normal ∧
          ((reclassifyAnchor g q).tile r).roomIndex ≠ HALLWAY_SENTINEL
      · rw [if_pos hc]
        exact hg1terr r
      · rw [if_neg hc]
        exact hg1terr r
    · intro r hrB
      rw [hg2tile r]
      by_cases hc : r ∈ neighborsIn g0 q ∧
          ((reclassifyAnchor g q).tile r).terrain = Terrain.normal ∧
          ((reclassifyAnchor g q).tile r).roomIndex ≠ HALLWAY_SENTINEL
      · rw [if_pos hc]
        exact hRoomNew r hrB
      · rw [if_neg hc]
        exact hRoomNew r hrB
    · intro r hrB
      rw [hg2tile r]
      by_cases hM : r ∈ neighborsIn g0 q ∧
          ((reclassifyAnchor g q).tile r).terrain = Terrain.normal ∧
          ((reclassifyAnchor g q).tile r).roomIndex ≠ HALLWAY_SENTINEL
      · rw [if_pos hM]
        have hrq : r ≠ q := by
          intro hrq
          have := ((mem_neighborsIn g0 q r).mp hM.1).1
          rw [hrq] at this
          exact self_not_mem_neighbors q this
        have hroomr : ((reclassifyAnchor g q).tile r).roomIndex = (g.tile r).roomIndex := by
          rw [hg1room r, if_neg (fun hc => hrq hc.1)]
        have hgr : (g.tile r).roomIndex ≠ HALLWAY_SENTINEL := by
          rw [← hroomr]
          exact hM.2.2
        have hr0 : (g0.tile r).roomIndex ≠ HALLWAY_SENTINEL ∧
            ((g0.tile r).roomIndex = ANCHOR_SENTINEL → k < scanIdx g0 r) := by
          rw [hRoom r hrB] at hgr
          have hidxne : scanIdx g0 r ≠ k := by
            intro he
            exact hrq (scanIdx_inj g0 r q hrB hqB (by rw [he, hqidx]))
          by_cases hFE : (g0.tile r).roomIndex = ANCHOR_SENTINEL
          · by_cases hlt : scanIdx g0 r < k
            · rw [if_pos ⟨hFE, hlt⟩] at hgr
              exact absurd rfl hgr
            · exact ⟨by rw [hFE]; unfold HALLWAY_SENTINEL ANCHOR_SENTINEL; omega,
                fun _ => by omega⟩
          · rw [if_neg (fun hc => hFE hc.1)] at hgr
            exact ⟨hgr, fun hc => absurd hc hFE⟩
        constructor
        · intro _
          refine ⟨q, ?_, ?_, ?_⟩
          · rw [mem_neighborsIn]
            exact ⟨neighbors_symm ((mem_neighborsIn g0 q r).mp hM.1).1, hqB⟩
          · omega
          · rw [marksB_iff]
            refine ⟨hqopen, hqhall, ?_, hr0.1, ?_⟩
            · rw [← hg1terr r]
              exact hM.2.1
            · intro hFE
              rw [hqidx]
              exact hr0.2 hFE
        · intro _
          rfl
      · rw [if_neg hM]
        rw [hg1junc r]
        rw [hJunc r hrB]
        constructor
        · rintro ⟨b, hbmem, hblt, hbm⟩
          exact ⟨b, hbmem, by omega, hbm⟩
        · rintro ⟨b, hbmem, hblt, hbm⟩
          have hbB : inBoundsB g0 b = true := ((mem_neighborsIn g0 r b).mp hbmem).2
          by_cases hbk : scanIdx g0 b < k
          · exact ⟨b, hbmem, hbk, hbm⟩
          · have hbq : b = q := scanIdx_inj g0 b q hbB hqB (by rw [hqidx]; omega)
            subst hbq
            exfalso
            apply hM
            rw [marksB_iff] at hbm
            obtain ⟨-, -, hropen, hrnh, hranch⟩ := hbm
            have hrq : r ≠ b := by
              intro hrb
              have := ((mem_neighborsIn g0 r b).mp hbmem).1
              rw [← hrb] at this
              exact self_not_mem_neighbors r this
            refine ⟨?_, ?_, ?_⟩
            · rw [mem_neighborsIn]
              exact ⟨neighbors_symm ((mem_neighborsIn g0 r b).mp hbmem).1, hrB⟩
            · rw [hg1terr r]
              exact hropen
            · rw [hg1room r, if_neg (fun hc => hrq hc.1), hRoom r hrB]
              by_cases hFE : (g0.tile r).roomIndex = ANCHOR_SENTINEL
              · have := hranch hFE
                rw [hqidx] at this
                rw [if_neg (fun hc => by
                  have := hc.2
                  omega)]
                exact hrnh
              · rw [if_neg (fun hc => hFE hc.1)]
                exact hrnh
  · rw [if_neg hC]
    refine ⟨hg1W, hg1H, hg1frame, hg1terr, hRoomNew, ?_⟩
    intro r hrB
    rw [hg1junc r, hJunc r hrB]
    constructor
    · rintro ⟨b, hbmem, hblt, hbm⟩
      exact ⟨b, hbmem, by omega, hbm⟩
    · rintro ⟨b, hbmem, hblt, hbm⟩
      have hbB : inBoundsB g0 b = true := ((mem_neighborsIn g0 r b).mp hbmem).2
      by_cases hbk : scanIdx g0 b < k
      · exact ⟨b, hbmem, hbk, hbm⟩
      · have hbq : b = q := scanIdx_inj g0 b q hbB hqB (by rw [hqidx]; omega)
        subst hbq
        exfalso
        apply hC
        rw [marksB_iff] at hbm
        obtain ⟨hqopen2, hqhall2, -, -, -⟩ := hbm
        constructor
        · rw [hCroom]
          rcases hqhall2 with hro | hro
          · rw [if_neg (by rw [hro]; unfold HALLWAY_SENTINEL ANCHOR_SENTINEL; omega)]
            exact hro
          · rw [if_pos hro]
        · rw [hg1terr b]
          exact hqopen2

theorem rowMajor_getElem (g : Grid) (i : Nat) (h : i < (rowMajor g).length) :
    (rowMajor g).get ⟨i, h⟩ = posAt g i := by
  unfold rowMajor at h ⊢
  simp only [List.get_eq_getElem, List.getElem_map, List.getElem_range]

theorem junctionInv_fold (g0 : Grid) :
    ∀ (l pre : List Pos) (g : Grid), rowMajor g0 = pre ++ l →
      junctionInv g0 g pre.length →
      junctionInv g0 (l.foldl visitTile g) (g0.width * g0.height) := by
  intro l
  induction l with
  | nil =>
    intro pre g hsplit hinv
    simp only [List.foldl_nil]
    have hlen : pre.length = g0.width * g0.height := by
      have hrl := rowMajor_length g0
      rw [hsplit, List.length_append] at hrl
      simp only [List.length_nil] at hrl
      omega
    rw [← hlen]
    exact hinv
  | cons a rest ih =>
    intro pre g hsplit hinv
    simp only [List.foldl_cons]
    have hlen : pre.length < (rowMajor g0).length := by
      rw [hsplit, List.length_append]
      simp only [List.length_cons]
      omega
    have hltotal : pre.length < g0.width * g0.height := by
      rw [← rowMajor_length g0]
      exact hlen
    have ha : a = posAt g0 pre.length := by
      have hl2 : pre.length < (pre ++ a :: rest).length := by
        rw [← hsplit]
        exact hlen
      have h2 : (pre ++ a :: rest).getD pre.length (0, 0) = a := by
        rw [List.getD_eq_getElem _ _ hl2, List.getElem_append_right (Nat.le_refl pre.length)]
        simp
      have h3 : (rowMajor g0).getD pre.length (0, 0) = a := by
        rw [hsplit]
        exact h2
      have h4 : (rowMajor g0).getD pre.length (0, 0) = posAt g0 pre.length := by
        rw [List.getD_eq_getElem _ _ hlen]
        have h5 := rowMajor_getElem g0 pre.length hlen
        simpa using h5
      rw [← h4]
      exact h3.symm
    have hstep := junctionInv_step g0 g pre.length hltotal hinv
    rw [← ha] at hstep
    apply ih (pre ++ [a]) (visitTile g a)
    · rw [hsplit, List.append_assoc]
      rfl
    · rw [List.length_append, List.length_singleton]
      exact hstep

/-- Claim C3: during junction finalization's single row-major ascending scan,
a tile ends up flagged as a junction exactly when it is open, it is not
classified hallway at the moment a marking visit reaches it, and some open
adjacent tile already counts as hallway at its own visit; hallway anchors are
reclassified to the hallway sentinel the instant they are visited, so the
anchor of documented layout A (hallway neighbor earlier in scan order) is
flagged while the anchor of documented layout B (visited before all of its
hallway neighbors) is not. -/
theorem claim_C3 :
    (∀ g0 : Grid, (∀ p ∈ rowMajor g0, (g0.tile p).junction = false) →
      ∀ p : Pos, inBoundsB g0 p = true →
        (((FinalizeJunctions g0).tile p).junction = true ↔
          ∃ b ∈ neighborsIn g0 p, marksB g0 b p = true)) ∧
    ((FinalizeJunctions layoutA).tile (3, 1)).junction = true ∧
    ((FinalizeJunctions layoutB).tile (1, 1)).junction = false := by
  refine ⟨?_, by decide, by decide⟩
  intro g0 hclean p hp
  have hbase : junctionInv g0 g0 0 := by
    refine ⟨rfl, rfl, fun _ _ => rfl, fun _ => rfl, ?_, ?_⟩
    · intro r hrB
      rw [if_neg (by
        rintro ⟨-, hlt⟩
        exact Nat.not_lt_zero _ hlt)]
    · intro r hrB
      constructor
      · intro hj
        rw [hclean r ((mem_rowMajor_iff g0 r).mpr hrB)] at hj
        cases hj
      · rintro ⟨b, -, hblt, -⟩
        exact absurd hblt (Nat.not_lt_zero _)
  have hfin := junctionInv_fold g0 (rowMajor g0) [] g0 (by simp) hbase
  obtain ⟨-, -, -, -, -, hJ⟩ := hfin
  have hiff := hJ p hp
  unfold FinalizeJunctions
  rw [hiff]
  constructor
  · rintro ⟨b, hbmem, -, hbm⟩
    exact ⟨b, hbmem, hbm⟩
  · rintro ⟨b, hbmem, hbm⟩
    have hbB := ((mem_neighborsIn g0 p b).mp hbmem).2
    exact ⟨b, hbmem, scanIdx_lt_total g0 b hbB, hbm⟩

/-- Witness for claim C3: the characterization applied to documented layout
A at the anchor tile. -/
theorem claim_C3_witness :
    (∀ p ∈ rowMajor layoutA, (layoutA.tile p).junction = false) ∧
    (inBoundsB layoutA (3, 1) = true) ∧
    (((FinalizeJunctions layoutA).tile (3, 1)).junction = true ↔
      ∃ b ∈ neighborsIn layoutA (3, 1), marksB layoutA b (3, 1) = true) :=
  ⟨by decide, by decide, claim_C3.1 layoutA (by decide) (3, 1) (by decide)⟩

end DungeonGen
